import Mathlib

/-!
# Verification of the reactive-system kernel (TypeScript sources)

Shallow embedding of the push–pull reactive computation kernel:
variables (cells), computations, the logical clock, dirty/`cause_at`
propagation, output/input pruning, error commits, the running-task abort
machinery, and the duplicate-output problem/repair engine.

Each definition mirrors the TypeScript function of the same (or nearly the
same) name.  JavaScript `number` fields that can go negative are embedded
as `Int`; non-negative clocks as `Nat`.  Exceptions are embedded with
`Except`; observer callbacks that may throw are `RResult → Except String Unit`.
-/
set_option maxRecDepth 4000

/-- User-level values: the JSON-like fragment `deepEqual` (utils.ts) compares.
`vundefined` is JavaScript `undefined`. -/
inductive Val where
  | vint  : Int → Val
  | vstr  : String → Val
  | vbool : Bool → Val
  | vnull : Val
  | vundefined : Val
  | varr  : List Val → Val

mutual
/-- Deep structural equality, `deepEqual` of utils.ts: `===` on primitives,
element-wise on arrays, `false` across kinds. -/
def deepEqual : Val → Val → Bool
  | .vint a, .vint b => a == b
  | .vstr a, .vstr b => a == b
  | .vbool a, .vbool b => a == b
  | .vnull, .vnull => true
  | .vundefined, .vundefined => true
  | .varr a, .varr b => deepEqualList a b
  | _, _ => false
def deepEqualList : List Val → List Val → Bool
  | [], [] => true
  | x :: xs, y :: ys => deepEqual x y && deepEqualList xs ys
  | _, _ => false
end

/-- Reasons of a structural error, `StructuralErrorReason` in types.ts. -/
inductive StructuralErrorReason where
  | missingInput
  | circularDependency
  | invalidDefinition
  | duplicateOutput
deriving DecidableEq, Repr

/-- Structural error payload, `StructuralError` in types.ts, details abridged
to the fields the kernel reads back. -/
structure StructuralError where
  reason : StructuralErrorReason
  computationId : String
  missingInputs : List String
  conflictsWith : Option String
deriving DecidableEq, Repr

/-- Stored result, `Result` in types.ts: tagged variant held by every variable. -/
inductive RResult where
  | success : Val → RResult
  | error : Val → RResult
  | fatal : StructuralError → RResult
  | uninitialized : RResult

/-- Computation states, `ComputationState` in types.ts. -/
inductive CState where
  | idle
  | pending
  | ready
deriving DecidableEq, Repr

/-- The `state` getter of `Computation` (computation.ts): a pure function of
`dirty`, `observeCount`, `dirtyInputCount`. -/
def stateOf (dirty : Bool) (observeCount : Int) (dirtyInputCount : Int) : CState :=
  if !dirty || observeCount == 0 then .idle
  else if dirtyInputCount > 0 then .pending
  else .ready

/-- Outcome of a `getValue` call, separating the distinct throw shapes the
code can produce. -/
inductive GetValueOutcome where
  | value : Val → GetValueOutcome
  | throwStored : Val → GetValueOutcome
  | throwStructural : StructuralError → GetValueOutcome
  | throwUninitializedError : GetValueOutcome
  | throwGeneric : String → GetValueOutcome

/-- Result dispatch of the public `ReactiveModule.getValue`
(reactive_module.ts): `success` resolves, `error` throws the stored error,
and every other variant (`fatal` included) falls into the `else` branch that
throws a fresh generic `Error` about the variable being uninitialized. -/
def getValueDispatch (variableId : String) : RResult → GetValueOutcome
  | .success v => .value v
  | .error e => .throwStored e
  | _ => .throwGeneric ("Variable " ++ variableId ++ " is uninitialized and has no value.")

/-- Result dispatch of the internal `_getValue` (module_execution.ts):
`error` and `fatal` both re-throw the stored error object unchanged,
`uninitialized` throws `UninitializedError`. -/
def getValueDispatchExec : RResult → GetValueOutcome
  | .error e => .throwStored e
  | .fatal se => .throwStructural se
  | .uninitialized => .throwUninitializedError
  | .success v => .value v

/-- An observer callback: may return normally or throw. -/
def ObserverFn := RResult → Except String Unit

/-- Propagation-site notification, `notifyObservers` in module_propagation.ts:
invokes each observer in turn
with the variable's result, with **no** try/catch — the first throw
propagates out of the propagation site. -/
def notifyObserversRun : List ObserverFn → RResult → Except String Unit
  | [], _ => .ok ()
  | cb :: rest, r =>
    match cb r with
    | .ok _ => notifyObserversRun rest r
    | .error e => .error e

/-- The immediate notification inside `_observe` (module_core.ts): fires only
when the variable is clean, and wraps the callback in try/catch, so a throw
is logged and never propagates. -/
def observeImmediateNotify (cb : ObserverFn) (dirty : Bool) (r : RResult) : Except String Unit :=
  if dirty then .ok ()
  else
    match cb r with
    | .ok _ => .ok ()
    | .error _ => .ok ()

/-- Task handle, `RunningTask` in types.ts.  `aborted` records that
`abortController.abort()` has been called on it. -/
structure RunningTask where
  taskId : Nat
  cause_at : Nat
  aborted : Bool

/-- A cell, class `Variable` of variable.ts.  `producer`/`dependents` are
stored as ids; `observers` is the number of registered callbacks. -/
structure Variable where
  id : String
  result : RResult
  value_at : Nat
  cause_at : Nat
  dirty : Bool
  producer : Option String
  dependents : List String
  observers : Nat
  observeCount : Int

/-- Class `Computation` of computation.ts (scalar/data fields; the async body
is host-supplied and not part of the state the claims quantify over).
Named `RComputation` because Mathlib already owns `Computation`. -/
structure RComputation where
  id : String
  staticInputs : List String
  runtimeInputs : List String
  outputs : List String
  dirty : Bool
  observeCount : Int
  dirtyInputCount : Int
  cause_at : Nat
  input_version : Int
  runningTask : Option RunningTask
  abortingTasks : List RunningTask

/-- The `state` getter of computation.ts: pure function of the three data
fields; `runningTask` is not consulted. -/
def RComputation.state (c : RComputation) : CState :=
  stateOf c.dirty c.observeCount c.dirtyInputCount

/-- A computation definition, `ComputationDefinition` in types.ts (body
omitted: opaque to the structural operations embedded here). -/
structure ComputationDefinition where
  id : String
  inputs : List String
  outputs : List String

/-- `ProblemReason` of problem_types.ts. -/
inductive ProblemReason where
  | missingInput : List String → ProblemReason
  | circularDependency : List String → ProblemReason
  | duplicateOutput : Option String → ProblemReason
  | invalidDefinition : String → ProblemReason

/-- A quarantined computation, `ProblemComputation` of problem_types.ts: the
reused `Computation` object plus the problem bookkeeping fields. -/
structure ProblemComputation where
  base : RComputation
  problemReason : ProblemReason
  missingInputs : List String
  definition : ComputationDefinition

/-- Whole-kernel state: the fields of `ReactiveModuleCore` (module_core.ts)
and the scheduler queue of module_schedule.ts.  `notifications` is the
observable log of observer invocations (id, delivered result). -/
structure Kernel where
  logicalClock : Nat
  vars : List (String × Variable)
  computations : List (String × RComputation)
  problem_variables : List (String × Variable)
  problem_computations : List (String × ProblemComputation)
  outputWaiters : List (String × List String)
  readyQueue : List String
  notifications : List (String × RResult)

/-- Association-list lookup (JS `Map.get`). -/
def lookupA {α : Type} (l : List (String × α)) (id : String) : Option α :=
  (l.find? (fun p => p.1 == id)).map (fun p => p.2)

/-- Association-list update of an existing key, preserving order. -/
def updateA {α : Type} (l : List (String × α)) (id : String) (v : α) : List (String × α) :=
  l.map (fun p => if p.1 == id then (p.1, v) else p)

/-- JS `Map.set`: update in place if present, else append (insertion order). -/
def putA {α : Type} (l : List (String × α)) (id : String) (v : α) : List (String × α) :=
  if (l.find? (fun p => p.1 == id)).isSome then updateA l id v else l ++ [(id, v)]

/-- JS `Map.delete`. -/
def removeA {α : Type} (l : List (String × α)) (id : String) : List (String × α) :=
  l.filter (fun p => !(p.1 == id))

def getComputation (k : Kernel) (cid : String) : Option RComputation :=
  lookupA k.computations cid

def setComputation (k : Kernel) (cid : String) (c : RComputation) : Kernel :=
  { k with computations := updateA k.computations cid c }

/-- Variable lookup across the normal and problem tables, as `_getVariable`
(module_core.ts) checks `variables` first, then `problem_variables`. -/
def getVariableAny (k : Kernel) (vid : String) : Option Variable :=
  match lookupA k.vars vid with
  | some v => some v
  | none => lookupA k.problem_variables vid

/-- Writes a variable back to whichever table it lives in (JS mutates the
shared object in place). -/
def setVariableAny (k : Kernel) (vid : String) (v : Variable) : Kernel :=
  if (lookupA k.vars vid).isSome then
    { k with vars := updateA k.vars vid v }
  else if (lookupA k.problem_variables vid).isSome then
    { k with problem_variables := updateA k.problem_variables vid v }
  else k

/-- `addToReadyQueue` (module_schedule.ts): dedup on queue membership and on
a running task. -/
def addToReadyQueue (k : Kernel) (cid : String) : Kernel :=
  match getComputation k cid with
  | none => k
  | some c =>
    if !(k.readyQueue.contains cid) && c.runningTask.isNone then
      { k with readyQueue := k.readyQueue ++ [cid] }
    else k

/-- `abortTask` (computation.ts): fire the cancellation signal, move the task
into `abortingTasks`, clear `runningTask`, then re-check scheduling. -/
def abortTask (k : Kernel) (cid : String) : Kernel :=
  match getComputation k cid with
  | none => k
  | some c =>
    match c.runningTask with
    | none => k
    | some t =>
      let c1 := { c with runningTask := none,
                         abortingTasks := c.abortingTasks ++ [{ t with aborted := true }] }
      let k1 := setComputation k cid c1
      if c1.state == CState.ready then addToReadyQueue k1 cid else k1

/-- `checkAbortNeeded` (computation.ts): abort on Ready→Pending always, on
Ready→Idle only when still dirty (observe count dropped to zero). -/
def checkAbortNeeded (k : Kernel) (cid : String) (oldState newState : CState) : Kernel :=
  match getComputation k cid with
  | none => k
  | some c =>
    if oldState != CState.ready || c.runningTask.isNone then k
    else if newState == CState.pending then abortTask k cid
    else if newState == CState.idle then
      if c.dirty then abortTask k cid else k
    else k

/-- `checkScheduleNeeded` (computation.ts). -/
def checkScheduleNeeded (k : Kernel) (cid : String) (newState : CState) : Kernel :=
  match getComputation k cid with
  | none => k
  | some c =>
    if newState == CState.ready && c.runningTask.isNone then addToReadyQueue k cid else k

/-- `onStateChange` (computation.ts). -/
def onStateChange (k : Kernel) (cid : String) (oldState : CState) : Kernel :=
  match getComputation k cid with
  | none => k
  | some c =>
    let newState := c.state
    if oldState == newState then k
    else
      let k1 := checkAbortNeeded k cid oldState newState
      checkScheduleNeeded k1 cid newState

/-- The `dirty` setter of computation.ts. -/
def setDirty (k : Kernel) (cid : String) (value : Bool) : Kernel :=
  match getComputation k cid with
  | none => k
  | some c =>
    if c.dirty == value then k
    else onStateChange (setComputation k cid { c with dirty := value }) cid c.state

/-- The `observeCount` setter of computation.ts. -/
def setObserveCount (k : Kernel) (cid : String) (value : Int) : Kernel :=
  match getComputation k cid with
  | none => k
  | some c =>
    if c.observeCount == value then k
    else onStateChange (setComputation k cid { c with observeCount := value }) cid c.state

/-- The `dirtyInputCount` setter of computation.ts. -/
def setDirtyInputCount (k : Kernel) (cid : String) (value : Int) : Kernel :=
  match getComputation k cid with
  | none => k
  | some c =>
    if c.dirtyInputCount == value then k
    else onStateChange (setComputation k cid { c with dirtyInputCount := value }) cid c.state

/-- `checkAbortOnCauseAtChange` (computation.ts): with a running task, abort
exactly when the task's captured `cause_at` is below the new value. -/
def checkAbortOnCauseAtChange (k : Kernel) (cid : String) (newCauseAt : Nat) : Kernel :=
  match getComputation k cid with
  | none => k
  | some c =>
    match c.runningTask with
    | none => k
    | some t => if t.cause_at < newCauseAt then abortTask k cid else k

/-- The `cause_at` setter of computation.ts: assign, then run the abort check
when the value changed. -/
def setCauseAt (k : Kernel) (cid : String) (value : Nat) : Kernel :=
  match getComputation k cid with
  | none => k
  | some c =>
    let k1 := setComputation k cid { c with cause_at := value }
    if c.cause_at != value then checkAbortOnCauseAtChange k1 cid value else k1

/-- `isInputOfComputation` (module_core.ts): membership in `staticInputs`. -/
def isInputOfComputation (v : Variable) (c : RComputation) : Bool :=
  c.staticInputs.contains v.id

/-- `tryIncrementDirtyInputCount` (module_propagation.ts): fires only on a
new-dirty edge for a computed (producer-owned) input that is dirty. -/
def tryIncrementDirtyInputCount (k : Kernel) (cid : String)
    (sourceVariable : Option String) (isNewDirty : Bool) : Kernel :=
  match getComputation k cid with
  | none => k
  | some c =>
    match sourceVariable with
    | none => k
    | some vid =>
      match getVariableAny k vid with
      | none => k
      | some v =>
        if !isNewDirty || !(isInputOfComputation v c) then k
        else if v.producer.isSome && v.dirty then
          setDirtyInputCount k cid (c.dirtyInputCount + 1)
        else k

/-- `_propagateCauseAtDownward` (module_propagation.ts), fuel-indexed for the
graph recursion.  Step order is exactly the source's: the dirty-input-count
update precedes the cause-monotonicity early return. -/
def propagateCauseAtDownward : Nat → Kernel → String → Nat → Option String → Bool → Kernel
  | 0, k, _, _, _, _ => k
  | Nat.succ fuel, k, cid, newCauseAt, sourceVariable, isNewDirty =>
    let k1 := tryIncrementDirtyInputCount k cid sourceVariable isNewDirty
    match getComputation k1 cid with
    | none => k1
    | some c =>
      if newCauseAt ≤ c.cause_at then k1
      else
        let k2 := setCauseAt k1 cid newCauseAt
        let k3 := setDirty k2 cid true
        match getComputation k3 cid with
        | none => k3
        | some c3 =>
          c3.outputs.foldl (fun ka oid =>
            match getVariableAny ka oid with
            | none => ka
            | some o =>
              let wasOutputDirty := o.dirty
              let compCause := ((getComputation ka cid).map (fun cc => cc.cause_at)).getD newCauseAt
              let kb := setVariableAny ka oid { o with cause_at := compCause, dirty := true }
              o.dependents.foldl (fun kc did =>
                propagateCauseAtDownward fuel kc did newCauseAt (some oid) (!wasOutputDirty)) kb) k3

/-- `_markDirty` (module_propagation.ts). -/
def markDirty (fuel : Nat) (k : Kernel) (vid : String) (t : Nat) (isNewDirty : Bool) : Kernel :=
  match getVariableAny k vid with
  | none => k
  | some v =>
    v.dependents.foldl (fun k1 did =>
      propagateCauseAtDownward fuel k1 did t (some vid) isNewDirty) k

/-- `decrementDirtyInputCount` (module_propagation.ts): only computed inputs
are counted; the variable's dirty flag is deliberately not consulted. -/
def decrementDirtyInputCount (k : Kernel) (cid : String) (v : Variable) : Kernel :=
  match getComputation k cid with
  | none => k
  | some c =>
    if v.producer.isSome then setDirtyInputCount k cid (c.dirtyInputCount - 1) else k

/-- `_cleanVariable` (module_propagation.ts): notify observers, then cascade
a dirty-input-count decrement to every dependent consuming this variable. -/
def cleanVariable (k : Kernel) (vid : String) : Kernel :=
  match getVariableAny k vid with
  | none => k
  | some v =>
    let k1 := { k with notifications := k.notifications ++ List.replicate v.observers (vid, v.result) }
    v.dependents.foldl (fun k2 did =>
      match getComputation k2 did with
      | none => k2
      | some c =>
        if isInputOfComputation v c then decrementDirtyInputCount k2 did v else k2) k1

/-- JS `result.type === 'success' ? result.value : undefined`. -/
def oldSuccessValue : RResult → Val
  | .success v => v
  | _ => .vundefined

/-- `_updateSource` (module_propagation.ts). -/
def updateSource (fuel : Nat) (k : Kernel) (variableId : String) (value : Val) :
    Except String Kernel :=
  let currentLogicalClock := k.logicalClock + 1
  let k0 := { k with logicalClock := currentLogicalClock }
  match getVariableAny k0 variableId with
  | none => Except.error ("Variable " ++ variableId ++ " not found.")
  | some v =>
    if v.producer.isSome then
      Except.error ("Cannot update variable " ++ variableId ++ " directly as it is produced by a computation.")
    else
      let oldValue : Val := oldSuccessValue v.result
      let valueChanged := !(deepEqual oldValue value)
      let v1 := if valueChanged then
          { v with result := .success value, value_at := currentLogicalClock } else v
      let v2 := { v1 with cause_at := currentLogicalClock, dirty := false }
      let k1 := setVariableAny k0 variableId v2
      let k2 := markDirty fuel k1 variableId currentLogicalClock true
      Except.ok (cleanVariable k2 variableId)

/-- `getMaxInputVersion` (module_propagation.ts). -/
def getMaxInputVersion (k : Kernel) (inputs : List String) : Nat :=
  inputs.foldl (fun m iid =>
    match getVariableAny k iid with
    | some v => max m v.value_at
    | none => m) 0

/-- `shouldExecute` (module_execution.ts): a never-executed computation
(`input_version = 0`) always runs; otherwise run only when some runtime
input's `value_at` exceeds `input_version`. -/
def shouldExecute (k : Kernel) (c : RComputation) : Bool :=
  if c.input_version == 0 then true
  else (getMaxInputVersion k c.runtimeInputs : Int) > c.input_version

/-- `cleanOutputDirty` (module_propagation.ts). -/
def cleanOutputDirty (k : Kernel) (cid : String) : Kernel :=
  match getComputation k cid with
  | none => k
  | some c =>
    c.outputs.foldl (fun k1 oid =>
      match getVariableAny k1 oid with
      | none => k1
      | some o => cleanVariable (setVariableAny k1 oid { o with dirty := false }) oid) k

/-- `maybeSkipExecution` (module_execution.ts): `true` means the body is
skipped (input pruning) after cleaning the outputs and the dirty flag. -/
def maybeSkipExecution (k : Kernel) (cid : String) : Kernel × Bool :=
  match getComputation k cid with
  | none => (k, false)
  | some c =>
    if shouldExecute k c then (k, false)
    else
      let k1 := cleanOutputDirty k cid
      (setDirty k1 cid false, true)

/-- JS record read `newOutputs[id]`: `undefined` when the key is absent. -/
def recordGet (m : List (String × Val)) (key : String) : Val :=
  (((m.find? (fun p => p.1 == key)).map (fun p => p.2))).getD .vundefined

/-- `updateOutputs` (module_execution.ts): one clock tick shared by all
changed outputs; unchanged outputs keep their `value_at`; every output is
cleaned and cascaded. -/
def updateOutputs (k : Kernel) (cid : String) (newOutputs : List (String × Val)) : Kernel :=
  match getComputation k cid with
  | none => k
  | some c =>
    let hasValueChange := c.outputs.any (fun oid =>
      match getVariableAny k oid with
      | none => false
      | some ov => !(deepEqual (oldSuccessValue ov.result) (recordGet newOutputs oid)))
    let k0 := if hasValueChange then { k with logicalClock := k.logicalClock + 1 } else k
    let newValueAt := if hasValueChange then k.logicalClock + 1 else 0
    c.outputs.foldl (fun k1 oid =>
      match getVariableAny k1 oid with
      | none => k1
      | some ov =>
        let valueChanged := !(deepEqual (oldSuccessValue ov.result) (recordGet newOutputs oid))
        let ov1 := if valueChanged then
            { ov with result := .success (recordGet newOutputs oid), value_at := newValueAt }
          else ov
        let compCause := ((getComputation k1 cid).map (fun cc => cc.cause_at)).getD ov.cause_at
        cleanVariable (setVariableAny k1 oid { ov1 with cause_at := compCause, dirty := false }) oid) k0

/-- `updateOutputsWithError` (module_execution.ts): every output gets the
`Error` result and its **own** fresh clock tick for `value_at`. -/
def updateOutputsWithError (k : Kernel) (cid : String) (err : Val) : Kernel :=
  match getComputation k cid with
  | none => k
  | some c =>
    c.outputs.foldl (fun k1 oid =>
      match getVariableAny k1 oid with
      | none => k1
      | some o =>
        let clock := k1.logicalClock + 1
        let k2 := { k1 with logicalClock := clock }
        let compCause := ((getComputation k2 cid).map (fun cc => cc.cause_at)).getD o.cause_at
        cleanVariable
          (setVariableAny k2 oid
            { o with result := .error err, value_at := clock, cause_at := compCause, dirty := false })
          oid) k

/-- `isStale` (module_propagation.ts). -/
def isStale (k : Kernel) (c : RComputation) : Bool :=
  if c.input_version == 0 then true
  else (getMaxInputVersion k c.runtimeInputs : Int) > c.input_version

/-- JS `Math.max(...runtimeInputs.map(v => v.cause_at))`: `-∞` (here `-1`,
below every `Nat` cause) on an empty set. -/
def maxInputCauseAt (k : Kernel) (inputs : List String) : Int :=
  inputs.foldl (fun m iid =>
    match getVariableAny k iid with
    | some v => max m (v.cause_at : Int)
    | none => m) (-1)

/-- `_propagateObserveCountUpward` (module_propagation.ts), fuel-indexed:
bump the variable, bump its producer through the setter, recurse through the
producer's runtime inputs, then re-propagate `cause_at` downward when a
positive delta reaches a stale clean producer. -/
def propagateObserveCountUpward : Nat → Kernel → String → Int → Kernel
  | 0, k, _, _ => k
  | Nat.succ fuel, k, vid, delta =>
    if delta == 0 then k
    else
      match getVariableAny k vid with
      | none => k
      | some v =>
        let k1 := setVariableAny k vid { v with observeCount := v.observeCount + delta }
        match v.producer with
        | none => k1
        | some pid =>
          match getComputation k1 pid with
          | none => k1
          | some producer =>
            let k2 := setObserveCount k1 pid (producer.observeCount + delta)
            let k3 := producer.runtimeInputs.foldl
              (fun ka iid => propagateObserveCountUpward fuel ka iid delta) k2
            match getComputation k3 pid with
            | none => k3
            | some p3 =>
              if delta > 0 && !p3.dirty && isStale k3 p3 then
                let m := maxInputCauseAt k3 p3.runtimeInputs
                if m > (p3.cause_at : Int) then
                  propagateCauseAtDownward fuel k3 pid m.toNat none false
                else k3
              else k3

/-- Step of `trackVariableAccess` (module_execution.ts) that pre-bumps the
running task's captured `cause_at` to the accessed variable's `cause_at`
before anything else happens. -/
def trackPreBump (k : Kernel) (cid : String) (vid : String) : Kernel :=
  match getComputation k cid, getVariableAny k vid with
  | some comp, some v =>
    match comp.runningTask with
    | some t =>
      if v.cause_at > comp.cause_at then
        setComputation k cid { comp with runningTask := some { t with cause_at := v.cause_at } }
      else k
    | none => k
  | _, _ => k

/-- Step of `trackVariableAccess` that records the variable among the
computation's runtime inputs. -/
def trackAttachInput (k : Kernel) (cid : String) (vid : String) : Kernel :=
  match getComputation k cid with
  | some c1 => setComputation k cid { c1 with runtimeInputs := c1.runtimeInputs ++ [vid] }
  | none => k

/-- Step of `trackVariableAccess` that records the computation among the
variable's dependents. -/
def trackAttachDependent (k : Kernel) (cid : String) (vid : String) : Kernel :=
  match getVariableAny k vid with
  | some v2 =>
    if v2.dependents.contains cid then k
    else setVariableAny k vid { v2 with dependents := v2.dependents ++ [cid] }
  | none => k

/-- Step of `trackVariableAccess` that extends the observe count upward into
the newly attached input's cone. -/
def trackObserve (fuel : Nat) (k : Kernel) (cid : String) (vid : String) : Kernel :=
  match getComputation k cid with
  | some c3 =>
    if c3.observeCount > 0 then propagateObserveCountUpward fuel k vid c3.observeCount else k
  | none => k

/-- Step of `trackVariableAccess` that propagates the input's `cause_at`
downward into the computation when it exceeds the computation's. -/
def trackCausePropagate (fuel : Nat) (k : Kernel) (cid : String) (vid : String) : Kernel :=
  match getVariableAny k vid, getComputation k cid with
  | some v4, some c4 =>
    if v4.cause_at > c4.cause_at then
      propagateCauseAtDownward fuel k cid v4.cause_at (some vid) false
    else k
  | _, _ => k

/-- Step of `trackVariableAccess` that counts a dirty attached input. -/
def trackDirtyInput (k : Kernel) (cid : String) (vid : String) : Kernel :=
  match getVariableAny k vid, getComputation k cid with
  | some v5, some c5 =>
    if v5.dirty then setDirtyInputCount k cid (c5.dirtyInputCount + 1) else k
  | _, _ => k

/-- The new-dependency branch of `trackVariableAccess`
(module_execution.ts), composed from the steps above in source order. -/
def trackVariableAccess (fuel : Nat) (k : Kernel) (cid : String) (vid : String)
    (signalAborted : Bool) : Except String Kernel :=
  match getComputation k cid, getVariableAny k vid with
  | some comp, some _v =>
    if comp.runtimeInputs.contains vid then Except.ok k
    else if signalAborted then Except.error "Task was aborted"
    else if !(comp.staticInputs.contains vid) then
      Except.error ("Variable " ++ vid ++ " not in staticInputs of " ++ cid)
    else
      Except.ok (trackDirtyInput
        (trackCausePropagate fuel
          (trackObserve fuel
            (trackAttachDependent
              (trackAttachInput (trackPreBump k cid vid) cid vid) cid vid)
            cid vid)
          cid vid)
        cid vid)
  | _, _ => Except.ok k

/-- `buildDependencyGraph` (dependency_graph.ts): producer → consumers over
the static shapes. -/
def buildDependencyGraph (shapes : List ComputationDefinition) : List (String × List String) :=
  let producerByOutput : List (String × String) :=
    shapes.foldl (fun acc s => s.outputs.foldl (fun a out => putA a out s.id) acc) []
  let graph0 : List (String × List String) :=
    shapes.foldl (fun g s => if (lookupA g s.id).isSome then g else g ++ [(s.id, [])]) []
  shapes.foldl (fun g consumer =>
    consumer.inputs.foldl (fun g2 input =>
      match lookupA producerByOutput input with
      | none => g2
      | some producer =>
        let g3 := if (lookupA g2 producer).isSome then g2 else g2 ++ [(producer, [])]
        let cur := (lookupA g3 producer).getD []
        putA g3 producer (if cur.contains consumer.id then cur else cur ++ [consumer.id])) g)
    graph0

/-- JS `Array.lastIndexOf` for the cycle-path slice (only used when the
element is present). -/
def lastIndexOf (l : List String) (x : String) : Nat :=
  l.enum.foldl (fun acc p => if p.2 == x then p.1 else acc) 0

/-- DFS bookkeeping of `detectCycleFrom` (dependency_graph.ts). -/
structure DfsState where
  visited : List String
  inStack : List String
  stack : List String

/-- The recursive `dfs` of `detectCycleFrom`: gray-stack back-edge detection,
fuel-indexed (fuel is taken above the node count by the caller). -/
def dfsCycle : Nat → List (String × List String) → String → DfsState →
    DfsState × Option (List String)
  | 0, _, _, st => (st, none)
  | Nat.succ fuel, graph, node, st =>
    let st1 : DfsState :=
      { visited := st.visited ++ [node], inStack := st.inStack ++ [node],
        stack := st.stack ++ [node] }
    let neighbors := (lookupA graph node).getD []
    let folded := neighbors.foldl (fun (acc : DfsState × Option (List String)) next =>
      match acc with
      | (st2, some cyc) => (st2, some cyc)
      | (st2, none) =>
        if !(st2.visited.contains next) then dfsCycle fuel graph next st2
        else if st2.inStack.contains next then
          let idx := lastIndexOf st2.stack next
          (st2, some ((st2.stack.drop idx) ++ [next]))
        else (st2, none)) (st1, none)
    match folded with
    | (st3, some cyc) => (st3, some cyc)
    | (st3, none) =>
      ({ st3 with inStack := st3.inStack.filter (fun x => !(x == node)),
                  stack := st3.stack.dropLast }, none)

/-- `detectCycleFrom` (dependency_graph.ts). -/
def detectCycleFrom (graph : List (String × List String)) (startId : String) :
    Option (List String) :=
  (dfsCycle (graph.length + 1) graph startId
    { visited := [], inStack := [], stack := [] }).2

/-- `getComputationShapeFromExisting` (module_definition.ts). -/
def getComputationShapeFromExisting (c : RComputation) : ComputationDefinition :=
  { id := c.id, inputs := c.staticInputs, outputs := c.outputs }

/-- `detectCircularDependencyIfAdded` (module_definition.ts): healthy plus
problem shapes, minus the candidate id, plus the candidate. -/
def detectCircularDependencyIfAdded (k : Kernel) (defn : ComputationDefinition) :
    Option (List String) :=
  let shapes :=
    (k.computations.foldl (fun acc p =>
      if p.1 == defn.id then acc else acc ++ [getComputationShapeFromExisting p.2]) [])
    ++ (k.problem_computations.foldl (fun acc p =>
      if p.1 == defn.id then acc else acc ++ [getComputationShapeFromExisting p.2.base]) [])
    ++ [defn]
  detectCycleFrom (buildDependencyGraph shapes) defn.id

/-- `getMissingInputs` (module_definition.ts). -/
def getMissingInputs (k : Kernel) (defn : ComputationDefinition) : List String :=
  defn.inputs.filter (fun i =>
    (lookupA k.vars i).isNone && (lookupA k.problem_variables i).isNone)

/-- `getProblemInputs` (module_definition.ts). -/
def getProblemInputs (k : Kernel) (defn : ComputationDefinition) : List String :=
  defn.inputs.filter (fun i => (lookupA k.problem_variables i).isSome)

/-- `getOutputConflictInfo` (module_definition.ts): first output already
owned, with the existing producer's id (or "source"). -/
def getOutputConflictInfo (k : Kernel) (defn : ComputationDefinition) :
    Option (String × String) :=
  defn.outputs.findSome? (fun out =>
    match lookupA k.vars out with
    | some v => some (out, v.producer.getD "source")
    | none =>
      match lookupA k.problem_variables out with
      | some v => some (out, v.producer.getD "source")
      | none => none)

/-- `computeInitialCauseAt` (module_definition.ts). -/
def computeInitialCauseAt (k : Kernel) (defn : ComputationDefinition) : Nat :=
  defn.inputs.foldl (fun m i =>
    match getVariableAny k i with
    | some v => max m v.cause_at
    | none => m) 0

/-- `countInitialDirtyInputs` (module_definition.ts), count component. -/
def countInitialDirtyInputs (k : Kernel) (defn : ComputationDefinition) : Int :=
  ((defn.inputs.filter (fun i =>
    match getVariableAny k i with
    | some v => v.dirty
    | none => false)).length : Int)

def structuralReasonTag : ProblemReason → StructuralErrorReason
  | .missingInput _ => .missingInput
  | .circularDependency _ => .circularDependency
  | .duplicateOutput _ => .duplicateOutput
  | .invalidDefinition _ => .invalidDefinition

/-- The `Fatal` payload built in `_createProblemComputation` /
`markComputationAsProblem`. -/
def structuralErrorOf (cid : String) (r : ProblemReason) : StructuralError :=
  { reason := structuralReasonTag r,
    computationId := cid,
    missingInputs := match r with | .missingInput m => m | _ => [],
    conflictsWith := match r with | .duplicateOutput c => c | _ => none }

/-- `updateProblemReason` (module_problem_management.ts). -/
def updateProblemReason (pc : ProblemComputation) : ProblemComputation :=
  match pc.problemReason with
  | .missingInput _ =>
    if pc.missingInputs.isEmpty then pc
    else { pc with problemReason := .missingInput pc.missingInputs }
  | _ => pc

/-- `markComputationAsProblem` (module_problem_management.ts): move the
computation and its outputs to the problem tables, rewrite results to
`Fatal`, notify, detach inputs, and recursively mark healthy dependents. -/
def markComputationAsProblem : Nat → Kernel → String → ProblemReason → Kernel
  | 0, k, _, _ => k
  | Nat.succ fuel, k, cid, reason =>
    match lookupA k.computations cid with
    | none => k
    | some comp =>
      let k1 := { k with computations := removeA k.computations cid }
      let k2 := comp.runtimeInputs.foldl (fun kk inputId =>
          match getVariableAny kk inputId with
          | some v =>
            let kk1 := setVariableAny kk inputId
              { v with dependents := v.dependents.filter (fun d => !(d == cid)) }
            if comp.observeCount > 0 then
              propagateObserveCountUpward (Nat.succ fuel) kk1 inputId (-(comp.observeCount))
            else kk1
          | none => kk) k1
      let k3 := comp.outputs.foldl (fun kk outputId =>
          match lookupA kk.vars outputId with
          | some v =>
            let v1 := { v with result := RResult.fatal (structuralErrorOf cid reason) }
            { kk with vars := removeA kk.vars outputId,
                      problem_variables := putA kk.problem_variables outputId v1,
                      notifications := kk.notifications
                        ++ List.replicate v1.observers (outputId, v1.result) }
          | none => kk) k2
      let pc : ProblemComputation :=
        { base := { comp with runtimeInputs := [] },
          problemReason := reason,
          missingInputs := match reason with | .missingInput m => m | _ => [],
          definition := { id := cid, inputs := comp.staticInputs, outputs := comp.outputs } }
      let k4 := { k3 with problem_computations := putA k3.problem_computations cid pc }
      comp.outputs.foldl (fun kk outputId =>
          match lookupA kk.problem_variables outputId with
          | some v =>
            v.dependents.foldl (fun kk2 depId =>
              if (lookupA kk2.computations depId).isSome then
                markComputationAsProblem fuel kk2 depId (.missingInput [outputId])
              else
                match lookupA kk2.problem_computations depId with
                | some dpc =>
                  match dpc.problemReason with
                  | .missingInput _ =>
                    let dpc1 := { dpc with missingInputs :=
                      if dpc.missingInputs.contains outputId then dpc.missingInputs
                      else dpc.missingInputs ++ [outputId] }
                    { kk2 with problem_computations :=
                        updateA kk2.problem_computations depId (updateProblemReason dpc1) }
                  | _ => kk2
                | none => kk2) kk
          | none => kk) k4

/-- `_createProblemComputation` (module_definition.ts): quarantine an
ill-formed definition.  Conflicting outputs are *not* created (first-win);
duplicate-output ids are registered as waiters on each taken output. -/
def createProblemComputation (fuel : Nat) (k : Kernel) (defn : ComputationDefinition)
    (reason : ProblemReason) (missingInputs : List String) : Kernel :=
  let step1 := defn.outputs.foldl (fun (acc : Kernel × List String) outputId =>
      if (lookupA acc.1.vars outputId).isSome
          || (lookupA acc.1.problem_variables outputId).isSome then acc
      else
        let v : Variable :=
          { id := outputId, result := RResult.fatal (structuralErrorOf defn.id reason),
            value_at := 0, cause_at := 0, dirty := false, producer := some defn.id,
            dependents := [], observers := 0, observeCount := 0 }
        ({ acc.1 with problem_variables := putA acc.1.problem_variables outputId v },
         acc.2 ++ [outputId])) (k, [])
  let k1 := step1.1
  let createdOutputs := step1.2
  let base : RComputation :=
    { id := defn.id, staticInputs := defn.inputs, runtimeInputs := [],
      outputs := createdOutputs, dirty := false, observeCount := 0, dirtyInputCount := 0,
      cause_at := 0, input_version := 0, runningTask := none, abortingTasks := [] }
  let pc : ProblemComputation :=
    { base := base, problemReason := reason, missingInputs := missingInputs,
      definition := defn }
  let k2 := { k1 with problem_computations := putA k1.problem_computations defn.id pc }
  let k3 := defn.inputs.foldl (fun kk inputId =>
      match getVariableAny kk inputId with
      | some v =>
        setVariableAny kk inputId
          { v with dependents :=
              if v.dependents.contains defn.id then v.dependents
              else v.dependents ++ [defn.id] }
      | none => kk) k2
  let k4 :=
    match reason with
    | .duplicateOutput _ =>
      defn.outputs.foldl (fun kk outputId =>
        if (lookupA kk.vars outputId).isSome
            || (lookupA kk.problem_variables outputId).isSome then
          let cur := (lookupA kk.outputWaiters outputId).getD []
          { kk with outputWaiters :=
              (putA kk.outputWaiters outputId
                (if cur.contains defn.id then cur else cur ++ [defn.id])) }
        else kk) k3
    | _ => k3
  createdOutputs.foldl (fun kk outputId =>
      match lookupA kk.problem_variables outputId with
      | some v =>
        v.dependents.foldl (fun kk2 depId =>
          if (lookupA kk2.computations depId).isSome then
            markComputationAsProblem fuel kk2 depId (.missingInput [outputId])
          else kk2) kk
      | none => kk) k4

/-- The fresh-id paths of `_defineComputation` (module_definition.ts):
problem classification and quarantine, or healthy creation.  The returned
flag is `true` for the healthy path. -/
def defineComputationPrim (fuel : Nat) (k : Kernel) (defn : ComputationDefinition) :
    Except String (Kernel × Bool) :=
  if (lookupA k.computations defn.id).isSome
      || (lookupA k.problem_computations defn.id).isSome then
    Except.error ("Computation " ++ defn.id ++ " already defined.")
  else
    let missingInputs := getMissingInputs k defn
    let problemInputs := getProblemInputs k defn
    let conflictInfo := getOutputConflictInfo k defn
    let cyclePath := detectCircularDependencyIfAdded k defn
    if !missingInputs.isEmpty || !problemInputs.isEmpty
        || conflictInfo.isSome || cyclePath.isSome then
      let reason : ProblemReason :=
        match cyclePath with
        | some cp => .circularDependency cp
        | none =>
          match conflictInfo with
          | some ci => .duplicateOutput (some ci.2)
          | none => .missingInput (missingInputs ++ problemInputs)
      Except.ok
        (createProblemComputation fuel k defn reason (missingInputs ++ problemInputs), false)
    else
      let initialCauseAt := computeInitialCauseAt k defn
      let initialDirtyInputCount := countInitialDirtyInputs k defn
      let comp : RComputation :=
        { id := defn.id, staticInputs := defn.inputs, runtimeInputs := [],
          outputs := defn.outputs, dirty := true, observeCount := 0,
          dirtyInputCount := initialDirtyInputCount, cause_at := initialCauseAt,
          input_version := 0, runningTask := none, abortingTasks := [] }
      let k1 := { k with computations := putA k.computations defn.id comp }
      let k2 := defn.outputs.foldl (fun kk outputId =>
          { kk with vars :=
              (putA kk.vars outputId
                { id := outputId, result := RResult.uninitialized, value_at := 0,
                  cause_at := initialCauseAt, dirty := true, producer := some defn.id,
                  dependents := [], observers := 0, observeCount := 0 }) }) k1
      let k3 := defn.inputs.foldl (fun kk inputId =>
          match getVariableAny kk inputId with
          | some v =>
            let kk1 := setVariableAny kk inputId
              { v with dependents :=
                  if v.dependents.contains defn.id then v.dependents
                  else v.dependents ++ [defn.id] }
            match lookupA kk1.computations defn.id with
            | some c =>
              { kk1 with computations :=
                  (updateA kk1.computations defn.id
                    { c with runtimeInputs :=
                        if c.runtimeInputs.contains inputId then c.runtimeInputs
                        else c.runtimeInputs ++ [inputId] }) }
            | none => kk1
          | none => kk) k2
      Except.ok (k3, true)

/-- `getMissingInputsList` (module_repair_engine.ts): only the normal table
counts. -/
def getMissingInputsList (k : Kernel) (pc : ProblemComputation) : List String :=
  pc.definition.inputs.filter (fun i => (lookupA k.vars i).isNone)

/-- `hasOutputConflicts` (module_repair_engine.ts). -/
def hasOutputConflicts (k : Kernel) (pc : ProblemComputation) : Bool :=
  pc.definition.outputs.any (fun o => (lookupA k.vars o).isSome)

/-- `canRecover` (module_repair_engine.ts). -/
def canRecover (k : Kernel) (pc : ProblemComputation) : Bool :=
  (getMissingInputsList k pc).isEmpty && !(hasOutputConflicts k pc)

mutual

/-- `recoverComputation` (module_repair_engine.ts): rehydrate outputs into
the normal table, build a fresh healthy computation, re-attach dependencies,
restore saved observer counts, then attempt downstream repair. -/
def recoverComputation : Nat → Kernel → String → Kernel
  | 0, k, _ => k
  | Nat.succ fuel, k, pid =>
    match lookupA k.problem_computations pid with
    | none => k
    | some pc =>
      let defn := pc.definition
      let initialCauseAt := computeInitialCauseAt k defn
      let prep := defn.outputs.foldl (fun (acc : Kernel × List String) outId =>
          if (lookupA acc.1.vars outId).isSome then acc
          else
            match (if pc.base.outputs.contains outId then
                     lookupA acc.1.problem_variables outId else none) with
            | some v =>
              let v1 := { v with
                cause_at := initialCauseAt, dirty := true, producer := none,
                result := RResult.uninitialized, value_at := 0 }
              ({ acc.1 with problem_variables := removeA acc.1.problem_variables outId,
                            vars := putA acc.1.vars outId v1 }, acc.2 ++ [outId])
            | none =>
              let v1 : Variable :=
                { id := outId, result := RResult.uninitialized, value_at := 0,
                  cause_at := initialCauseAt, dirty := true, producer := none,
                  dependents := [], observers := 0, observeCount := 0 }
              ({ acc.1 with vars := putA acc.1.vars outId v1 }, acc.2 ++ [outId]))
        (k, [])
      let k1 := prep.1
      let outIds := prep.2
      let k2 := { k1 with problem_computations := removeA k1.problem_computations pid }
      let initialDirtyInputCount := countInitialDirtyInputs k2 defn
      let newComp : RComputation :=
        { id := defn.id, staticInputs := defn.inputs,
          runtimeInputs := defn.inputs.filter (fun i => (lookupA k2.vars i).isSome),
          outputs := outIds, dirty := true, observeCount := 0,
          dirtyInputCount := initialDirtyInputCount, cause_at := initialCauseAt,
          input_version := 0, runningTask := none, abortingTasks := [] }
      let k3 := { k2 with computations := putA k2.computations defn.id newComp }
      let k4 := outIds.foldl (fun kk outId =>
          match lookupA kk.vars outId with
          | some v => { kk with vars := updateA kk.vars outId { v with producer := some defn.id } }
          | none => kk) k3
      let k5 := defn.inputs.foldl (fun kk inputId =>
          match lookupA kk.vars inputId with
          | some v =>
            { kk with vars :=
                (updateA kk.vars inputId
                  { v with dependents :=
                      if v.dependents.contains defn.id then v.dependents
                      else v.dependents ++ [defn.id] }) }
          | none => kk) k4
      let k6 := outIds.foldl (fun kk outId =>
          match lookupA kk.vars outId with
          | some v =>
            if v.observeCount > 0 then
              let kk1 :=
                match getComputation kk defn.id with
                | some c => setObserveCount kk defn.id (c.observeCount + v.observeCount)
                | none => kk
              match getComputation kk1 defn.id with
              | some c =>
                c.runtimeInputs.foldl (fun kk2 iid =>
                  propagateObserveCountUpward (Nat.succ fuel) kk2 iid v.observeCount) kk1
              | none => kk1
            else kk
          | none => kk) k5
      let k7 := defn.outputs.foldl (fun kk out => tryRepairUndefinedInputs fuel kk out) k6
      tryRepairCircularDependencies fuel k7

/-- `_tryRepairUndefinedInputs` (module_repair_engine.ts). -/
def tryRepairUndefinedInputs : Nat → Kernel → String → Kernel
  | 0, k, _ => k
  | Nat.succ fuel, k, changedVarId =>
    let candidates := (k.problem_computations.filter
      (fun p => p.2.missingInputs.contains changedVarId)).map (fun p => p.1)
    candidates.foldl (fun kk compId =>
      match lookupA kk.problem_computations compId with
      | none => kk
      | some comp =>
        let mi1 := comp.missingInputs.filter (fun x => !(x == changedVarId))
        let comp1 := { comp with missingInputs := mi1 }
        let pcs1 := updateA kk.problem_computations compId comp1
        let kk1 := { kk with problem_computations := pcs1 }
        let missingList := getMissingInputsList kk1 comp1
        if missingList.isEmpty && !(hasOutputConflicts kk1 comp1) then
          recoverComputation fuel kk1 compId
        else
          let comp2 := if missingList.isEmpty then comp1
                       else { comp1 with missingInputs := missingList }
          { kk1 with problem_computations :=
              updateA kk1.problem_computations compId (updateProblemReason comp2) }) k

/-- `_tryRepairOutputConflicts` (module_repair_engine.ts): sweep the waiters
registered on the released output, recovering each one that can recover, and
refreshing `conflictsWith` on those that cannot. -/
def tryRepairOutputConflicts : Nat → Kernel → String → Kernel
  | 0, k, _ => k
  | Nat.succ fuel, k, releasedOutputId =>
    match lookupA k.outputWaiters releasedOutputId with
    | none => k
    | some waiters =>
      if waiters.isEmpty then k
      else
        waiters.foldl (fun kk compId =>
          match lookupA kk.problem_computations compId with
          | none =>
            { kk with outputWaiters :=
                (updateA kk.outputWaiters releasedOutputId
                  (((lookupA kk.outputWaiters releasedOutputId).getD []).filter
                    (fun x => !(x == compId)))) }
          | some comp =>
            if canRecover kk comp then recoverComputation fuel kk compId
            else
              match comp.problemReason with
              | .duplicateOutput _ =>
                comp.definition.outputs.foldl (fun kk2 outId =>
                  let existing :=
                    match lookupA kk2.vars outId with
                    | some v => some v
                    | none => lookupA kk2.problem_variables outId
                  match existing with
                  | some v =>
                    match v.producer with
                    | some prodId =>
                      if prodId == compId then kk2
                      else
                        match lookupA kk2.problem_computations compId with
                        | some c2 =>
                          { kk2 with problem_computations :=
                              (updateA kk2.problem_computations compId
                                { c2 with problemReason := .duplicateOutput (some prodId) }) }
                        | none => kk2
                    | none => kk2
                  | none => kk2) kk
              | _ => kk) k

/-- `_tryRepairCircularDependencies` (module_repair_engine.ts). -/
def tryRepairCircularDependencies : Nat → Kernel → Kernel
  | 0, k => k
  | Nat.succ fuel, k =>
    let candidates := k.problem_computations.map (fun p => p.1)
    candidates.foldl (fun kk compId =>
      match lookupA kk.problem_computations compId with
      | none => kk
      | some comp =>
        if canRecover kk comp then recoverComputation fuel kk compId
        else
          match detectCircularDependencyIfAdded kk comp.definition, comp.problemReason with
          | none, .circularDependency _ =>
            let missing := getMissingInputsList kk comp
            let comp1 := { comp with problemReason := .missingInput missing }
            let pcs1 := updateA kk.problem_computations compId comp1
            let kk1 := { kk with problem_computations := pcs1 }
            comp.base.outputs.foldl (fun kk2 outId =>
              match lookupA kk2.problem_variables outId with
              | some v =>
                match v.result with
                | .fatal se =>
                  let se1 := { se with
                    reason := StructuralErrorReason.missingInput,
                    missingInputs := missing }
                  let v1 := { v with result := RResult.fatal se1 }
                  { kk2 with
                      problem_variables := updateA kk2.problem_variables outId v1,
                      notifications := kk2.notifications
                        ++ List.replicate v1.observers (outId, v1.result) }
                | _ => kk2
              | none => kk2) kk1
          | _, _ => kk) k

end

/-- `removeComputation` (module_base.ts), both the problem-table path and the
healthy path with per-output waiter repair and recursive dependent marking. -/
def removeComputation (fuel : Nat) (k : Kernel) (cid : String) : Kernel :=
  match lookupA k.problem_computations cid with
  | some comp =>
    let k1 := { k with problem_computations := removeA k.problem_computations cid }
    let k2 := comp.base.outputs.foldl (fun kk out =>
        tryRepairOutputConflicts fuel
          { kk with vars := removeA kk.vars out,
                    problem_variables := removeA kk.problem_variables out } out) k1
    tryRepairCircularDependencies fuel k2
  | none =>
    match lookupA k.computations cid with
    | none => k
    | some comp =>
      let k0 := if comp.runningTask.isSome then abortTask k cid else k
      let outputs := comp.outputs
      let affected := outputs.foldl (fun acc out =>
          match lookupA k0.vars out with
          | some v => acc ++ (v.dependents.filter (fun d => !(acc.contains d)))
          | none => acc) []
      let k1 := outputs.foldl (fun kk out =>
          tryRepairOutputConflicts fuel { kk with vars := removeA kk.vars out } out) k0
      let k2 := comp.runtimeInputs.foldl (fun kk inputId =>
          match getVariableAny kk inputId with
          | some v =>
            let kk1 := setVariableAny kk inputId
              { v with dependents := v.dependents.filter (fun d => !(d == cid)) }
            if comp.observeCount > 0 then
              propagateObserveCountUpward fuel kk1 inputId (-(comp.observeCount))
            else kk1
          | none => kk) k1
      let k3 := { k2 with computations := removeA k2.computations cid }
      let k4 := affected.foldl (fun kk depId =>
          let missingIds :=
            match lookupA kk.computations depId with
            | some dep =>
              let missing := dep.runtimeInputs.filter (fun v => outputs.contains v)
              if missing.isEmpty then outputs else missing
            | none =>
              match lookupA kk.problem_computations depId with
              | some dep =>
                let missing := dep.base.runtimeInputs.filter (fun v => outputs.contains v)
                if missing.isEmpty then outputs else missing
              | none => outputs
          if (lookupA kk.computations depId).isSome then
            markComputationAsProblem fuel kk depId (.missingInput missingIds)
          else
            match lookupA kk.problem_computations depId with
            | some dpc =>
              match dpc.problemReason with
              | .missingInput _ =>
                let merged := dpc.missingInputs
                  ++ missingIds.filter (fun m => !(dpc.missingInputs.contains m))
                let dpc1 := { dpc with missingInputs := merged }
                { kk with problem_computations :=
                    updateA kk.problem_computations depId (updateProblemReason dpc1) }
              | _ => kk
            | none => kk) k3
      tryRepairCircularDependencies fuel k4

/-! ## Concrete scenario states used by the claims -/
def mkSourceVar (id : String) (res : RResult) (va ca : Nat) (deps : List String)
    (obs : Nat) (oc : Int) : Variable :=
  { id := id, result := res, value_at := va, cause_at := ca, dirty := false,
    producer := none, dependents := deps, observers := obs, observeCount := oc }

def mkComputedVar (id : String) (res : RResult) (va ca : Nat) (d : Bool) (prod : String)
    (deps : List String) (obs : Nat) (oc : Int) : Variable :=
  { id := id, result := res, value_at := va, cause_at := ca, dirty := d,
    producer := some prod, dependents := deps, observers := obs, observeCount := oc }

def mkComp (id : String) (si ri outs : List String) (d : Bool) (oc dic : Int)
    (ca : Nat) (iv : Int) : RComputation :=
  { id := id, staticInputs := si, runtimeInputs := ri, outputs := outs, dirty := d,
    observeCount := oc, dirtyInputCount := dic, cause_at := ca, input_version := iv,
    runningTask := none, abortingTasks := [] }

/-- Quiesced diamond `a → B → b`, `a → C → c`, `b,c → D → d`, with `d`
observed, every cell committed (clock 4) and clean. -/
def kDiamond : Kernel :=
  { logicalClock := 4,
    vars := [
      ("a", mkSourceVar "a" (.success (.vint 1)) 1 1 ["B", "C"] 0 2),
      ("b", mkComputedVar "b" (.success (.vint 2)) 2 1 false "B" ["D"] 0 1),
      ("c", mkComputedVar "c" (.success (.vint 6)) 3 1 false "C" ["D"] 0 1),
      ("d", mkComputedVar "d" (.success (.vint 8)) 4 1 false "D" [] 1 1)],
    computations := [
      ("B", mkComp "B" ["a"] ["a"] ["b"] false 1 0 1 1),
      ("C", mkComp "C" ["a"] ["a"] ["c"] false 1 0 1 1),
      ("D", mkComp "D" ["b", "c"] ["b", "c"] ["d"] false 1 0 1 3)],
    problem_variables := [], problem_computations := [], outputWaiters := [],
    readyQueue := [], notifications := [] }

/-- Number of dirty computed runtime inputs of a computation — the
right-hand side of invariant C4. -/
def dirtyComputedInputCount (k : Kernel) (c : RComputation) : Int :=
  ((c.runtimeInputs.filter (fun iid =>
    match getVariableAny k iid with
    | some v => v.producer.isSome && v.dirty
    | none => false)).length : Int)

/-- Invariant C4 as a decidable whole-kernel check. -/
def dirtyInputCountInvariant (k : Kernel) : Bool :=
  k.computations.all (fun p => p.2.dirtyInputCount == dirtyComputedInputCount k p.2)

/-- Computation `E` with outputs `o1`, `o2` committed at clock 3 and dirty
again; `o1` has one observer and downstream consumer `F`. -/
def kTwoOut : Kernel :=
  { logicalClock := 9,
    vars := [
      ("o1", mkComputedVar "o1" (.success (.vint 5)) 3 8 true "E" ["F"] 1 1),
      ("o2", mkComputedVar "o2" (.success (.vint 7)) 3 8 true "E" [] 0 0)],
    computations := [
      ("E", mkComp "E" [] [] ["o1", "o2"] true 1 0 8 2),
      ("F", mkComp "F" ["o1"] ["o1"] [] true 1 1 8 2)],
    problem_variables := [], problem_computations := [], outputWaiters := [],
    readyQueue := [], notifications := [] }

/-- Computation `G` over source `x`, committed at `input_version = 2`, dirty
with `x.value_at = 2` unchanged: input pruning must skip the body. -/
def kPrune : Kernel :=
  { logicalClock := 9,
    vars := [
      ("x", mkSourceVar "x" (.success (.vint 1)) 2 9 ["G"] 0 1),
      ("g", mkComputedVar "g" (.success (.vint 2)) 3 9 true "G" [] 1 1)],
    computations := [
      ("G", mkComp "G" ["x"] ["x"] ["g"] true 1 0 9 2)],
    problem_variables := [], problem_computations := [], outputWaiters := [],
    readyQueue := [], notifications := [] }

/-- Computation `H` with a running task captured at `cause_at = 4`, about to
dynamically access source `v` whose `cause_at = 10`. -/
def kDynamic : Kernel :=
  { logicalClock := 10,
    vars := [
      ("v", mkSourceVar "v" (.success (.vint 1)) 10 10 [] 0 0),
      ("h", mkComputedVar "h" RResult.uninitialized 0 4 true "H" [] 1 1)],
    computations := [
      ("H", { mkComp "H" ["v"] [] ["h"] true 1 0 4 0 with
              runningTask := some { taskId := 1, cause_at := 4, aborted := false } })],
    problem_variables := [], problem_computations := [], outputWaiters := [],
    readyQueue := [], notifications := [] }

def kEmptyKernel : Kernel :=
  { logicalClock := 0, vars := [], computations := [], problem_variables := [],
    problem_computations := [], outputWaiters := [], readyQueue := [], notifications := [] }

def defnB1 : ComputationDefinition := { id := "B1", inputs := [], outputs := ["vB"] }

def defnB2 : ComputationDefinition := { id := "B2", inputs := [], outputs := ["vB"] }

def defnB3 : ComputationDefinition := { id := "B3", inputs := [], outputs := ["vB"] }

/-- Kernel after defining `B1`, `B2`, `B3`, all declaring output `vB`. -/
def kFirstWin : Kernel :=
  match defineComputationPrim 10 kEmptyKernel defnB1 with
  | .ok (k1, _) =>
    match defineComputationPrim 10 k1 defnB2 with
    | .ok (k2, _) =>
      match defineComputationPrim 10 k2 defnB3 with
      | .ok (k3, _) => k3
      | .error _ => k2
    | .error _ => k1
  | .error _ => kEmptyKernel

/-- The data fields of a computation that the state machinery (abort /
scheduling) never writes: everything except `runningTask` / `abortingTasks`. -/
def compScalar (c : RComputation) :
    String × List String × List String × List String × Bool × Int × Int × Nat × Int :=
  (c.id, c.staticInputs, c.runtimeInputs, c.outputs, c.dirty, c.observeCount,
   c.dirtyInputCount, c.cause_at, c.input_version)

/-- Effect contract of one kernel helper targeting computation `cid`: all
other state is untouched, other computations are untouched, and `cid`'s
scalar fields end up as `mod` prescribes. -/
def SetterEff (k k' : Kernel) (cid : String) (mod : RComputation → RComputation) : Prop :=
  k'.vars = k.vars ∧ k'.problem_variables = k.problem_variables
  ∧ k'.logicalClock = k.logicalClock ∧ k'.notifications = k.notifications
  ∧ (∀ x, x ≠ cid → getComputation k' x = getComputation k x)
  ∧ (∀ c, getComputation k cid = some c →
      ∃ c', getComputation k' cid = some c' ∧ compScalar c' = compScalar (mod c))
  ∧ (getComputation k cid = none → k' = k)

/-- Scalar fields other than `dirtyInputCount`. -/
def compScalarNoDic (c : RComputation) :
    String × List String × List String × List String × Bool × Int × Nat × Int :=
  (c.id, c.staticInputs, c.runtimeInputs, c.outputs, c.dirty, c.observeCount,
   c.cause_at, c.input_version)

/-- Relation between a computation before and after a clean cascade: only
`dirtyInputCount` may move, and only downward. -/
def dicRel : Option RComputation → Option RComputation → Prop
  | none, none => True
  | some c0, some c' =>
    compScalarNoDic c' = compScalarNoDic c0 ∧ c'.dirtyInputCount ≤ c0.dirtyInputCount
  | _, _ => False

/-- Effect contract of a clean cascade: variables, clock untouched; every
computation keeps its scalar fields except a possibly decreased
`dirtyInputCount`. -/
def WeakEff (k k' : Kernel) : Prop :=
  k'.vars = k.vars ∧ k'.problem_variables = k.problem_variables
  ∧ k'.logicalClock = k.logicalClock
  ∧ (∀ x, dicRel (getComputation k x) (getComputation k' x))

/-- Computation fields untouched by downward propagation (everything except
`dirty`, `dirtyInputCount`, `cause_at` and the task fields). -/
def compShapeP (c : RComputation) :
    String × List String × List String × List String × Int × Int :=
  (c.id, c.staticInputs, c.runtimeInputs, c.outputs, c.observeCount, c.input_version)

/-- Variable fields untouched by downward propagation (everything except
`cause_at` and `dirty`). -/
def varShapeP (v : Variable) :
    String × RResult × Nat × Option String × List String × Nat × Int :=
  (v.id, v.result, v.value_at, v.producer, v.dependents, v.observers, v.observeCount)

/-- What `_propagateCauseAtDownward` may and may not change, relative to the
kernel it started from. -/
def PresRel (k k' : Kernel) : Prop :=
  k'.logicalClock = k.logicalClock
  ∧ k'.notifications = k.notifications
  ∧ (∀ x, (getComputation k' x).map compShapeP = (getComputation k x).map compShapeP)
  ∧ (∀ y, (getVariableAny k' y).map varShapeP = (getVariableAny k y).map varShapeP)
  ∧ (∀ y, (∀ cid0 c0, getComputation k cid0 = some c0 → y ∉ c0.outputs) →
      getVariableAny k' y = getVariableAny k y)

/-- Declared outputs of a computation looked up by id. -/
def compOutputsD (k : Kernel) (cid : String) : List String :=
  match getComputation k cid with
  | some c => c.outputs
  | none => []

/-- Dependents of a variable looked up by id. -/
def varDependentsD (k : Kernel) (vid : String) : List String :=
  match getVariableAny k vid with
  | some v => v.dependents
  | none => []

/-- Computation ids reachable from `cid` by alternating output and dependent
edges within the given depth: the targets a downward propagation of that
depth can touch. -/
def reachComps (k : Kernel) : Nat → String → List String
  | 0, cid => [cid]
  | Nat.succ n, cid =>
    cid :: (compOutputsD k cid).foldl (fun acc oid =>
      acc ++ (varDependentsD k oid).foldl (fun acc2 did =>
        acc2 ++ reachComps k n did) []) []

/-! ## C1 — output pruning on value-unchanged commits -/
/-- One notification per registered observer of `oid`, carrying the variable's
current result — what `notifyObservers` emits when the variable is cleaned. -/
def observerNotes (k : Kernel) (oid : String) : List (String × RResult) :=
  match getVariableAny k oid with
  | some ov => List.replicate ov.observers (oid, ov.result)
  | none => []

/-- All notifications a value-unchanged commit of `c` emits: one per observer
per output, in output order. -/
def unchangedCommitNotes (k : Kernel) (c : RComputation) : List (String × RResult) :=
  c.outputs.foldl (fun acc oid => acc ++ observerNotes k oid) []

/-- Kernel after defining only `B1` (owner of `vB`). -/
def kAfterB1 : Kernel :=
  match defineComputationPrim 10 kEmptyKernel defnB1 with
  | .ok (k1, _) => k1
  | _ => kEmptyKernel

/-! ## Generic helper lemmas -/
theorem foldlInv {α σ : Type} (P : σ → Prop) (f : σ → α → σ) :
    ∀ (l : List α), (∀ s a, a ∈ l → P s → P (f s a)) → ∀ s, P s → P (l.foldl f s)
  | [], _, _, hs => hs
  | a :: l, h, s, hs =>
    foldlInv P f l (fun s2 b hb => h s2 b (List.mem_cons_of_mem a hb)) (f s a)
      (h s a (List.mem_cons_self a l) hs)

/-! ## C2 — getValue result dispatch -/
/-- C2 counterexample: at a concrete `Fatal` result, the public
`ReactiveModule.getValue` does not wrap and throw the structural error — it
falls into the `else` branch and throws a fresh generic uninitialized-style
`Error` that carries no structural information. -/
theorem getValue_fatal_not_wrapped :
    getValueDispatch "x"
      (RResult.fatal
        { reason := StructuralErrorReason.missingInput, computationId := "q",
          missingInputs := ["a"], conflictsWith := none })
      = GetValueOutcome.throwGeneric "Variable x is uninitialized and has no value." := rfl

/-- C2 (amended): `getValue` resolves the success value and throws the stored
error for an `Error` result; for `Fatal` the public dispatch throws a generic
uninitialized-variable `Error` (not a wrap of the structural error), while the
internal `_getValue` dispatch rethrows the structural error unwrapped; for
`Uninitialized` both throw an uninitialized error. -/
theorem getValue_result_dispatch :
    (∀ (id : String) (v : Val), getValueDispatch id (RResult.success v) = .value v)
    ∧ (∀ (id : String) (e : Val), getValueDispatch id (RResult.error e) = .throwStored e)
    ∧ (∀ (id : String) (se : StructuralError),
        getValueDispatch id (RResult.fatal se)
          = .throwGeneric ("Variable " ++ id ++ " is uninitialized and has no value."))
    ∧ (∀ (id : String), getValueDispatch id RResult.uninitialized
          = .throwGeneric ("Variable " ++ id ++ " is uninitialized and has no value."))
    ∧ (∀ (v : Val), getValueDispatchExec (RResult.success v) = .value v)
    ∧ (∀ (e : Val), getValueDispatchExec (RResult.error e) = .throwStored e)
    ∧ (∀ (se : StructuralError), getValueDispatchExec (RResult.fatal se) = .throwStructural se)
    ∧ getValueDispatchExec RResult.uninitialized = .throwUninitializedError :=
  ⟨fun _ _ => rfl, fun _ _ => rfl, fun _ _ => rfl, fun _ => rfl,
   fun _ => rfl, fun _ => rfl, fun _ => rfl, rfl⟩

/-! ## C3 — observer callbacks that throw -/
/-- C3 counterexample: a throwing observer invoked from the propagation-site
`notifyObservers` makes the whole notification call throw — the exception is
not caught there and propagates out of the kernel operation. -/
theorem observer_throw_propagates :
    notifyObserversRun [fun _ => Except.error "boom"] RResult.uninitialized
      = Except.error "boom" := rfl

/-- C3 (amended): the immediate notification at observe time catches a
throwing callback (the call always returns normally), but the propagation-site
`notifyObservers` has no try/catch — the first throwing observer's exception
propagates to the caller. -/
theorem observer_throw_handling :
    (∀ (cb : ObserverFn) (d : Bool) (r : RResult),
        observeImmediateNotify cb d r = Except.ok ())
    ∧ (∀ (cb : ObserverFn) (rest : List ObserverFn) (r : RResult) (e : String),
        cb r = Except.error e → notifyObserversRun (cb :: rest) r = Except.error e) := by
  constructor
  · intro cb d r
    unfold observeImmediateNotify
    by_cases hd : d
    · simp [hd]
    · simp [hd]
      cases cb r <;> rfl
  · intro cb rest r e hcb
    unfold notifyObserversRun
    rw [hcb]

/-- C3 witness: the amended theorem applied to a concrete throwing observer
followed by a well-behaved one. -/
theorem observer_throw_handling_inst :
    notifyObserversRun [fun _ => Except.error "boom", fun _ => Except.ok ()]
      RResult.uninitialized = Except.error "boom" :=
  observer_throw_handling.2 (fun _ => Except.error "boom") [fun _ => Except.ok ()]
    RResult.uninitialized "boom" rfl

/-! ## C6 — the three-state automaton is a pure function of the data fields -/
/-- C6: with the maintained sign invariants on the two counters, the state is
exactly the table of the spec — Idle iff not dirty or unobserved, Pending iff
dirty, observed and blocked on dirty inputs, Ready iff dirty, observed and
unblocked — and the `runningTask` field does not affect the state. -/
theorem state_pure_function (c : RComputation)
    (hoc : 0 ≤ c.observeCount) (hdic : 0 ≤ c.dirtyInputCount) :
    (c.state = CState.idle ↔ (c.dirty = false ∨ c.observeCount = 0))
    ∧ (c.state = CState.pending
        ↔ (c.dirty = true ∧ 0 < c.observeCount ∧ 0 < c.dirtyInputCount))
    ∧ (c.state = CState.ready
        ↔ (c.dirty = true ∧ 0 < c.observeCount ∧ c.dirtyInputCount = 0))
    ∧ (∀ t, ({ c with runningTask := t } : RComputation).state = c.state) := by
  refine ⟨?_, ?_, ?_, fun t => rfl⟩ <;>
    · by_cases hd : c.dirty <;> by_cases ho : c.observeCount = 0 <;>
        by_cases hi : c.dirtyInputCount > 0 <;>
        simp_all [RComputation.state, stateOf] <;>
        first
          | omega
          | (rw [if_pos (by omega)])
          | (rw [if_neg (by omega)]; simp_all)

/-- C6 witness: the characterization applied to the Ready computation `D` of
the diamond scenario. -/
theorem state_pure_function_inst :
    (mkComp "D" ["b", "c"] ["b", "c"] ["d"] true 1 0 5 3).state = CState.ready
    ∧ 0 < (1 : Int) := by
  refine ⟨?_, by decide⟩
  exact ((state_pure_function (mkComp "D" ["b", "c"] ["b", "c"] ["d"] true 1 0 5 3)
    (by decide) (by decide)).2.2.1).mpr ⟨rfl, by decide, by decide⟩

theorem lookupA_nil {α : Type} (y : String) : lookupA ([] : List (String × α)) y = none := rfl

theorem lookupA_cons {α : Type} (a : String) (b : α) (t : List (String × α)) (y : String) :
    lookupA ((a, b) :: t) y = if a = y then some b else lookupA t y := by
  simp only [lookupA, List.find?]
  by_cases h : a = y
  · simp [h]
  · have hb : (a == y) = false := by simp [h]
    simp [hb, h, lookupA]

theorem updateA_cons {α : Type} (a : String) (b : α) (t : List (String × α))
    (x : String) (v : α) :
    updateA ((a, b) :: t) x v = (if a = x then (a, v) else (a, b)) :: updateA t x v := by
  simp only [updateA, List.map]
  by_cases h : a = x
  · simp [h]
  · have hb : (a == x) = false := by simp [h]
    simp [hb, h]

theorem lookupA_updateA {α : Type} (l : List (String × α)) (x y : String) (v : α) :
    lookupA (updateA l x v) y
      = if x = y then (lookupA l y).map (fun _ => v) else lookupA l y := by
  induction l with
  | nil => by_cases h : x = y <;> simp [h, lookupA, updateA]
  | cons p t ih =>
    obtain ⟨a, b⟩ := p
    rw [updateA_cons]
    by_cases hax : a = x <;> by_cases hay : a = y <;> by_cases hxy : x = y <;>
      simp_all [lookupA_cons]

theorem lookupA_mem {α : Type} {l : List (String × α)} {x : String} {y : α}
    (h : lookupA l x = some y) : (x, y) ∈ l := by
  induction l with
  | nil => simp [lookupA] at h
  | cons p t ih =>
    obtain ⟨a, b⟩ := p
    rw [lookupA_cons] at h
    by_cases hax : a = x
    · subst hax
      simp at h
      simp [h]
    · simp [hax] at h
      simp [ih h]

theorem getComputation_setComputation (k : Kernel) (cid : String) (c : RComputation)
    (x : String) :
    getComputation (setComputation k cid c) x
      = if cid = x then (getComputation k x).map (fun _ => c) else getComputation k x := by
  simp [getComputation, setComputation, lookupA_updateA]

theorem addToReadyQueue_fields (k : Kernel) (cid : String) :
    (addToReadyQueue k cid).vars = k.vars
    ∧ (addToReadyQueue k cid).problem_variables = k.problem_variables
    ∧ (addToReadyQueue k cid).logicalClock = k.logicalClock
    ∧ (addToReadyQueue k cid).notifications = k.notifications
    ∧ (addToReadyQueue k cid).computations = k.computations := by
  unfold addToReadyQueue
  refine ⟨?_, ?_, ?_, ?_, ?_⟩ <;> (repeat' split) <;> rfl

theorem getComputation_congr_comps {k k' : Kernel}
    (h : k'.computations = k.computations) (x : String) :
    getComputation k' x = getComputation k x := by
  simp [getComputation, h]

theorem setterEff_refl (k : Kernel) (cid : String) : SetterEff k k cid id :=
  ⟨rfl, rfl, rfl, rfl, fun _ _ => rfl, fun c h => ⟨c, h, rfl⟩, fun _ => rfl⟩

theorem setterEff_addQ_compose {k k' : Kernel} {cid : String} {mod : RComputation → RComputation}
    (h : SetterEff k k' cid mod) : SetterEff k (addToReadyQueue k' cid) cid mod := by
  obtain ⟨h1, h2, h3, h4, h5, h6, h7⟩ := h
  have hf := addToReadyQueue_fields k' cid
  refine ⟨hf.1.trans h1, hf.2.1.trans h2, hf.2.2.1.trans h3, hf.2.2.2.1.trans h4, ?_, ?_, ?_⟩
  · intro x hx
    rw [getComputation_congr_comps hf.2.2.2.2 x]
    exact h5 x hx
  · intro c hcc
    obtain ⟨c', hg, hs⟩ := h6 c hcc
    exact ⟨c', (getComputation_congr_comps hf.2.2.2.2 cid).trans hg, hs⟩
  · intro hn
    rw [h7 hn]
    unfold addToReadyQueue
    rw [hn]

theorem setterEff_setComputation {k : Kernel} {cid : String} {c c1 : RComputation}
    {mod : RComputation → RComputation}
    (hc : getComputation k cid = some c) (hs : compScalar c1 = compScalar (mod c)) :
    SetterEff k (setComputation k cid c1) cid mod := by
  refine ⟨rfl, rfl, rfl, rfl, ?_, ?_, ?_⟩
  · intro x hx
    rw [getComputation_setComputation]
    rw [if_neg (fun h => hx h.symm)]
  · intro c0 h0
    rw [hc] at h0
    cases h0
    refine ⟨c1, ?_, hs⟩
    rw [getComputation_setComputation]
    simp [hc]
  · intro h0
    rw [hc] at h0
    cases h0

theorem eff_abortTask (k : Kernel) (cid : String) :
    SetterEff k (abortTask k cid) cid id := by
  unfold abortTask
  cases hc : getComputation k cid with
  | none => exact setterEff_refl k cid
  | some c =>
    dsimp only
    cases ht : c.runningTask with
    | none => exact setterEff_refl k cid
    | some t =>
      dsimp only
      split
      · exact setterEff_addQ_compose (setterEff_setComputation hc rfl)
      · exact setterEff_setComputation hc rfl

theorem setterEff_trans_id {k k1 k2 : Kernel} {cid : String}
    {mod : RComputation → RComputation}
    (h : SetterEff k k1 cid mod) (h2 : SetterEff k1 k2 cid id) :
    SetterEff k k2 cid mod := by
  obtain ⟨a1, a2, a3, a4, a5, a6, a7⟩ := h
  obtain ⟨b1, b2, b3, b4, b5, b6, b7⟩ := h2
  refine ⟨b1.trans a1, b2.trans a2, b3.trans a3, b4.trans a4, ?_, ?_, ?_⟩
  · intro x hx
    exact (b5 x hx).trans (a5 x hx)
  · intro c hcc
    obtain ⟨c', hg', hs'⟩ := a6 c hcc
    obtain ⟨c'', hg'', hs''⟩ := b6 c' hg'
    exact ⟨c'', hg'', hs''.trans hs'⟩
  · intro hn
    have hk1 : k1 = k := a7 hn
    have hn1 : getComputation k1 cid = none := by rw [hk1]; exact hn
    rw [b7 hn1, hk1]

theorem eff_checkScheduleNeeded (k : Kernel) (cid : String) (st : CState) :
    SetterEff k (checkScheduleNeeded k cid st) cid id := by
  unfold checkScheduleNeeded
  cases hc : getComputation k cid with
  | none => exact setterEff_refl k cid
  | some c =>
    dsimp only
    split
    · exact setterEff_addQ_compose (setterEff_refl k cid)
    · exact setterEff_refl k cid

theorem eff_checkAbortNeeded (k : Kernel) (cid : String) (st1 st2 : CState) :
    SetterEff k (checkAbortNeeded k cid st1 st2) cid id := by
  unfold checkAbortNeeded
  cases hc : getComputation k cid with
  | none => exact setterEff_refl k cid
  | some c =>
    dsimp only
    split
    · exact setterEff_refl k cid
    · split
      · exact eff_abortTask k cid
      · split
        · split
          · exact eff_abortTask k cid
          · exact setterEff_refl k cid
        · exact setterEff_refl k cid

theorem eff_onStateChange (k : Kernel) (cid : String) (st : CState) :
    SetterEff k (onStateChange k cid st) cid id := by
  unfold onStateChange
  cases hc : getComputation k cid with
  | none => exact setterEff_refl k cid
  | some c =>
    dsimp only
    split
    · exact setterEff_refl k cid
    · exact setterEff_trans_id (eff_checkAbortNeeded k cid st c.state)
        (eff_checkScheduleNeeded _ cid c.state)

theorem eff_checkAbortOnCauseAtChange (k : Kernel) (cid : String) (nc : Nat) :
    SetterEff k (checkAbortOnCauseAtChange k cid nc) cid id := by
  unfold checkAbortOnCauseAtChange
  cases hc : getComputation k cid with
  | none => exact setterEff_refl k cid
  | some c =>
    dsimp only
    cases c.runningTask with
    | none => exact setterEff_refl k cid
    | some t =>
      dsimp only
      split
      · exact eff_abortTask k cid
      · exact setterEff_refl k cid

theorem eff_setDirtyInputCount (k : Kernel) (cid : String) (val : Int) :
    SetterEff k (setDirtyInputCount k cid val) cid
      (fun c => { c with dirtyInputCount := val }) := by
  unfold setDirtyInputCount
  cases hc : getComputation k cid with
  | none =>
    dsimp only
    refine ⟨rfl, rfl, rfl, rfl, fun _ _ => rfl, ?_, fun _ => rfl⟩
    intro c h
    rw [hc] at h
    cases h
  | some c =>
    dsimp only
    split
    next hcond =>
      refine ⟨rfl, rfl, rfl, rfl, fun _ _ => rfl, ?_, fun h => nomatch hc.symm.trans h⟩
      intro c0 h0
      rw [hc] at h0
      cases h0
      refine ⟨c, hc, ?_⟩
      have hv : c.dirtyInputCount = val := eq_of_beq hcond
      simp [compScalar, hv]
    next =>
      exact setterEff_trans_id (setterEff_setComputation hc rfl)
        (eff_onStateChange _ cid c.state)

theorem eff_setDirty (k : Kernel) (cid : String) (val : Bool) :
    SetterEff k (setDirty k cid val) cid (fun c => { c with dirty := val }) := by
  unfold setDirty
  cases hc : getComputation k cid with
  | none =>
    dsimp only
    refine ⟨rfl, rfl, rfl, rfl, fun _ _ => rfl, ?_, fun _ => rfl⟩
    intro c h
    rw [hc] at h
    cases h
  | some c =>
    dsimp only
    split
    next hcond =>
      refine ⟨rfl, rfl, rfl, rfl, fun _ _ => rfl, ?_, fun h => nomatch hc.symm.trans h⟩
      intro c0 h0
      rw [hc] at h0
      cases h0
      refine ⟨c, hc, ?_⟩
      have hv : c.dirty = val := eq_of_beq hcond
      simp [compScalar, hv]
    next =>
      exact setterEff_trans_id (setterEff_setComputation hc rfl)
        (eff_onStateChange _ cid c.state)

theorem eff_setObserveCount (k : Kernel) (cid : String) (val : Int) :
    SetterEff k (setObserveCount k cid val) cid (fun c => { c with observeCount := val }) := by
  unfold setObserveCount
  cases hc : getComputation k cid with
  | none =>
    dsimp only
    refine ⟨rfl, rfl, rfl, rfl, fun _ _ => rfl, ?_, fun _ => rfl⟩
    intro c h
    rw [hc] at h
    cases h
  | some c =>
    dsimp only
    split
    next hcond =>
      refine ⟨rfl, rfl, rfl, rfl, fun _ _ => rfl, ?_, fun h => nomatch hc.symm.trans h⟩
      intro c0 h0
      rw [hc] at h0
      cases h0
      refine ⟨c, hc, ?_⟩
      have hv : c.observeCount = val := eq_of_beq hcond
      simp [compScalar, hv]
    next =>
      exact setterEff_trans_id (setterEff_setComputation hc rfl)
        (eff_onStateChange _ cid c.state)

theorem eff_setCauseAt (k : Kernel) (cid : String) (val : Nat) :
    SetterEff k (setCauseAt k cid val) cid (fun c => { c with cause_at := val }) := by
  unfold setCauseAt
  cases hc : getComputation k cid with
  | none =>
    dsimp only
    refine ⟨rfl, rfl, rfl, rfl, fun _ _ => rfl, ?_, fun _ => rfl⟩
    intro c h
    rw [hc] at h
    cases h
  | some c =>
    dsimp only
    split
    · exact setterEff_trans_id (setterEff_setComputation hc rfl)
        (eff_checkAbortOnCauseAtChange _ cid val)
    · exact setterEff_setComputation hc rfl

theorem dicRel_refl (o : Option RComputation) : dicRel o o := by
  cases o
  · simp [dicRel]
  · simp [dicRel]

theorem dicRel_trans {a b c : Option RComputation}
    (h1 : dicRel a b) (h2 : dicRel b c) : dicRel a c := by
  cases a <;> cases b <;> cases c <;> (simp_all [dicRel]; try omega)

theorem weakEff_refl (k : Kernel) : WeakEff k k :=
  ⟨rfl, rfl, rfl, fun _ => dicRel_refl _⟩

theorem weakEff_trans {k1 k2 k3 : Kernel} (h1 : WeakEff k1 k2) (h2 : WeakEff k2 k3) :
    WeakEff k1 k3 :=
  ⟨h2.1.trans h1.1, h2.2.1.trans h1.2.1, h2.2.2.1.trans h1.2.2.1,
   fun x => dicRel_trans (h1.2.2.2 x) (h2.2.2.2 x)⟩

theorem compScalar_split {c c' : RComputation} (h : compScalar c' = compScalar c) :
    compScalarNoDic c' = compScalarNoDic c ∧ c'.dirtyInputCount = c.dirtyInputCount := by
  simp [compScalar] at h
  obtain ⟨h1, h2, h3, h4, h5, h6, h7, h8, h9⟩ := h
  constructor
  · simp [compScalarNoDic, h1, h2, h3, h4, h5, h6, h8, h9]
  · exact h7

theorem weakEff_of_setterEff_id {k k' : Kernel} {cid : String}
    (h : SetterEff k k' cid id) : WeakEff k k' := by
  obtain ⟨h1, h2, h3, _, h5, h6, h7⟩ := h
  refine ⟨h1, h2, h3, ?_⟩
  intro x
  by_cases hx : x = cid
  · subst hx
    cases hcx : getComputation k x with
    | none => rw [h7 hcx, hcx]; simp [dicRel]
    | some c =>
      obtain ⟨c', hg, hs⟩ := h6 c hcx
      rw [hg]
      obtain ⟨hnd, hd⟩ := compScalar_split hs
      exact ⟨hnd, le_of_eq hd⟩
  · rw [h5 x hx]
    exact dicRel_refl _

theorem weakEff_decrement (k : Kernel) (cid : String) (v : Variable) :
    WeakEff k (decrementDirtyInputCount k cid v) := by
  unfold decrementDirtyInputCount
  cases hc : getComputation k cid with
  | none => exact weakEff_refl k
  | some c =>
    dsimp only
    split
    · have heff := eff_setDirtyInputCount k cid (c.dirtyInputCount - 1)
      obtain ⟨h1, h2, h3, _, h5, h6, h7⟩ := heff
      refine ⟨h1, h2, h3, ?_⟩
      intro x
      by_cases hx : x = cid
      · subst hx
        obtain ⟨c', hg, hs⟩ := h6 c hc
        rw [hc, hg]
        obtain ⟨hnd, hd⟩ := compScalar_split hs
        refine ⟨?_, ?_⟩
        · exact hnd.trans (by simp [compScalarNoDic])
        · rw [hd]; simp
      · rw [h5 x hx]
        exact dicRel_refl _
    · exact weakEff_refl k

theorem cleanVariable_spec (k : Kernel) (vid : String) :
    WeakEff k (cleanVariable k vid)
    ∧ (cleanVariable k vid).notifications
        = k.notifications
          ++ (match getVariableAny k vid with
              | some v => List.replicate v.observers (vid, v.result)
              | none => []) := by
  unfold cleanVariable
  cases hv : getVariableAny k vid with
  | none => exact ⟨weakEff_refl k, by simp⟩
  | some v =>
    dsimp only
    have hbase : WeakEff k { k with notifications :=
        k.notifications ++ List.replicate v.observers (vid, v.result) } :=
      ⟨rfl, rfl, rfl, fun x => dicRel_refl _⟩
    have hfold := foldlInv
      (fun s => WeakEff k s ∧ s.notifications
        = k.notifications ++ List.replicate v.observers (vid, v.result))
      (fun k2 did =>
        match getComputation k2 did with
        | none => k2
        | some c => if isInputOfComputation v c then decrementDirtyInputCount k2 did v else k2)
      v.dependents ?step _ ⟨hbase, rfl⟩
    · exact ⟨hfold.1, hfold.2⟩
    case step =>
      intro s did _ hP
      dsimp only
      cases hcd : getComputation s did with
      | none => exact hP
      | some c =>
        dsimp only
        split
        · have hw := weakEff_decrement s did v
          refine ⟨weakEff_trans hP.1 hw, ?_⟩
          have hnot : (decrementDirtyInputCount s did v).notifications = s.notifications := by
            unfold decrementDirtyInputCount
            cases hcc : getComputation s did with
            | none => rfl
            | some c2 =>
              dsimp only
              split
              · exact (eff_setDirtyInputCount s did (c2.dirtyInputCount - 1)).2.2.2.1
              · rfl
          rw [hnot, hP.2]
        · exact hP

theorem setVariableAny_fields (k : Kernel) (vid : String) (v : Variable) :
    (setVariableAny k vid v).computations = k.computations
    ∧ (setVariableAny k vid v).logicalClock = k.logicalClock
    ∧ (setVariableAny k vid v).notifications = k.notifications
    ∧ (setVariableAny k vid v).readyQueue = k.readyQueue := by
  unfold setVariableAny
  refine ⟨?_, ?_, ?_, ?_⟩ <;> (repeat' split) <;> rfl

theorem getVariableAny_set_self {k : Kernel} {vid : String} (v : Variable)
    (h : (getVariableAny k vid).isSome) :
    getVariableAny (setVariableAny k vid v) vid = some v := by
  unfold getVariableAny setVariableAny
  unfold getVariableAny at h
  cases hv : lookupA k.vars vid with
  | some w =>
    simp only [hv, Option.isSome_some, if_pos]
    simp [lookupA_updateA, hv]
  | none =>
    rw [hv] at h
    cases hp : lookupA k.problem_variables vid with
    | none => rw [hp] at h; simp at h
    | some w =>
      simp only [Option.isSome_none, Bool.false_eq_true, if_false, hp, Option.isSome_some,
        if_pos]
      simp [lookupA_updateA, hv, hp]

theorem getVariableAny_set_other {k : Kernel} {vid y : String} (v : Variable)
    (h : y ≠ vid) :
    getVariableAny (setVariableAny k vid v) y = getVariableAny k y := by
  unfold getVariableAny setVariableAny
  have hne : ¬(vid = y) := fun hh => h hh.symm
  by_cases hv : (lookupA k.vars vid).isSome
  · simp only [hv, if_pos]
    simp [lookupA_updateA, hne]
  · by_cases hp : (lookupA k.problem_variables vid).isSome
    · simp only [hv, Bool.false_eq_true, if_false, hp, if_pos]
      simp [lookupA_updateA, hne]
    · simp only [hv, hp, Bool.false_eq_true, if_false]

theorem getVariableAny_congr {k k' : Kernel} (hv : k'.vars = k.vars)
    (hp : k'.problem_variables = k.problem_variables) (y : String) :
    getVariableAny k' y = getVariableAny k y := by
  unfold getVariableAny
  rw [hv, hp]

theorem uoeFold (cid : String) (err : Val) :
    ∀ (outs : List String) (k' : Kernel),
    (∀ oid ∈ outs, (getVariableAny k' oid).isSome) → outs.Nodup →
    (outs.foldl (fun k1 oid =>
      match getVariableAny k1 oid with
      | none => k1
      | some o =>
        let clock := k1.logicalClock + 1
        let k2 := { k1 with logicalClock := clock }
        let compCause := ((getComputation k2 cid).map (fun cc => cc.cause_at)).getD o.cause_at
        cleanVariable
          (setVariableAny k2 oid
            { o with result := .error err, value_at := clock, cause_at := compCause,
                     dirty := false })
          oid) k').logicalClock = k'.logicalClock + outs.length
    ∧ (∀ y, y ∉ outs →
        getVariableAny (outs.foldl (fun k1 oid =>
          match getVariableAny k1 oid with
          | none => k1
          | some o =>
            let clock := k1.logicalClock + 1
            let k2 := { k1 with logicalClock := clock }
            let compCause := ((getComputation k2 cid).map (fun cc => cc.cause_at)).getD o.cause_at
            cleanVariable
              (setVariableAny k2 oid
                { o with result := .error err, value_at := clock, cause_at := compCause,
                         dirty := false })
              oid) k') y = getVariableAny k' y)
    ∧ (∀ i, (hi : i < outs.length) → ∃ v,
        getVariableAny (outs.foldl (fun k1 oid =>
          match getVariableAny k1 oid with
          | none => k1
          | some o =>
            let clock := k1.logicalClock + 1
            let k2 := { k1 with logicalClock := clock }
            let compCause := ((getComputation k2 cid).map (fun cc => cc.cause_at)).getD o.cause_at
            cleanVariable
              (setVariableAny k2 oid
                { o with result := .error err, value_at := clock, cause_at := compCause,
                         dirty := false })
              oid) k') (outs.get ⟨i, hi⟩) = some v
        ∧ v.result = RResult.error err ∧ v.dirty = false
        ∧ v.value_at = k'.logicalClock + i + 1) := by
  intro outs
  induction outs with
  | nil =>
    intro k' _ _
    refine ⟨by simp, fun y _ => rfl, fun i hi => absurd hi (by simp)⟩
  | cons oid rest ih =>
    intro k' hex hnd
    obtain ⟨o, ho⟩ := Option.isSome_iff_exists.mp (hex oid (List.mem_cons_self oid rest))
    have hndr : rest.Nodup := (List.nodup_cons.mp hnd).2
    have hoidr : oid ∉ rest := (List.nodup_cons.mp hnd).1
    simp only [List.foldl_cons, ho]
    set compCauseV : Nat := ((getComputation { k' with logicalClock := k'.logicalClock + 1 } cid).map
      (fun cc => cc.cause_at)).getD o.cause_at with hcc
    set o1 : Variable :=
      { o with
        result := RResult.error err,
        value_at := k'.logicalClock + 1,
        cause_at := compCauseV,
        dirty := false } with ho1
    set k2 : Kernel := { k' with logicalClock := k'.logicalClock + 1 } with hk2
    have hset := setVariableAny_fields k2 oid o1
    have hclean := cleanVariable_spec (setVariableAny k2 oid o1) oid
    obtain ⟨⟨wv, wp, wc, _⟩, _⟩ := hclean
    have hgAll : ∀ y, getVariableAny (cleanVariable (setVariableAny k2 oid o1) oid) y
        = getVariableAny (setVariableAny k2 oid o1) y :=
      getVariableAny_congr wv wp
    have hk4clock : (cleanVariable (setVariableAny k2 oid o1) oid).logicalClock
        = k'.logicalClock + 1 := by rw [wc, hset.2.1]
    have hself : getVariableAny (setVariableAny k2 oid o1) oid = some o1 :=
      getVariableAny_set_self o1 (by
        have : getVariableAny k2 oid = getVariableAny k' oid := rfl
        rw [this, ho]; rfl)
    have hother : ∀ y, y ≠ oid →
        getVariableAny (setVariableAny k2 oid o1) y = getVariableAny k' y := by
      intro y hy
      rw [getVariableAny_set_other o1 hy]
      rfl
    have hexr : ∀ x ∈ rest, (getVariableAny (cleanVariable (setVariableAny k2 oid o1) oid) x).isSome := by
      intro x hx
      have hxo : x ≠ oid := fun hh => hoidr (hh ▸ hx)
      rw [hgAll x, hother x hxo]
      exact hex x (List.mem_cons_of_mem oid hx)
    obtain ⟨ihclock, ihother, ihidx⟩ :=
      ih (cleanVariable (setVariableAny k2 oid o1) oid) hexr hndr
    refine ⟨?_, ?_, ?_⟩
    · rw [ihclock, hk4clock]
      simp [Nat.add_assoc, Nat.add_comm 1 rest.length]
    · intro y hy
      have hyo : y ≠ oid := fun hh => hy (hh ▸ List.mem_cons_self oid rest)
      have hyr : y ∉ rest := fun hh => hy (List.mem_cons_of_mem oid hh)
      rw [ihother y hyr, hgAll y, hother y hyo]
    · intro i hi
      match i with
      | 0 =>
        refine ⟨o1, ?_, rfl, rfl, by simp⟩
        have : (oid :: rest).get ⟨0, hi⟩ = oid := rfl
        rw [this, ihother oid hoidr, hgAll oid, hself]
      | Nat.succ j =>
        have hj : j < rest.length := by
          have := hi
          simp at this
          omega
        obtain ⟨v, hv1, hv2, hv3, hv4⟩ := ihidx j hj
        refine ⟨v, ?_, hv2, hv3, ?_⟩
        · have : (oid :: rest).get ⟨j + 1, hi⟩ = rest.get ⟨j, hj⟩ := rfl
          rw [this]
          exact hv1
        · rw [hv4, hk4clock]
          omega

/-! ## C10 — error commits tick the clock once per output -/
/-- C10: a non-abort body failure writes the `Error` result into every output
with `dirty = false`, but assigns each output's `value_at` from its own fresh
clock increment (the i-th output gets `clock + i + 1`), so with two or more
outputs the error-path `value_at` stamps are pairwise distinct — unlike the
success path's shared single tick. -/
theorem error_commit_per_output_ticks (k : Kernel) (cid : String) (err : Val)
    (c : RComputation) (hc : getComputation k cid = some c)
    (hex : ∀ oid ∈ c.outputs, (getVariableAny k oid).isSome)
    (hnd : c.outputs.Nodup) :
    (updateOutputsWithError k cid err).logicalClock = k.logicalClock + c.outputs.length
    ∧ (∀ i, (hi : i < c.outputs.length) → ∃ v,
        getVariableAny (updateOutputsWithError k cid err) (c.outputs.get ⟨i, hi⟩) = some v
        ∧ v.result = RResult.error err ∧ v.dirty = false
        ∧ v.value_at = k.logicalClock + i + 1)
    ∧ (∀ i j, (hi : i < c.outputs.length) → (hj : j < c.outputs.length) → i ≠ j →
        ∀ v w,
          getVariableAny (updateOutputsWithError k cid err) (c.outputs.get ⟨i, hi⟩) = some v →
          getVariableAny (updateOutputsWithError k cid err) (c.outputs.get ⟨j, hj⟩) = some w →
          v.value_at ≠ w.value_at) := by
  have hmain : (updateOutputsWithError k cid err).logicalClock
        = k.logicalClock + c.outputs.length
      ∧ (∀ i, (hi : i < c.outputs.length) → ∃ v,
          getVariableAny (updateOutputsWithError k cid err) (c.outputs.get ⟨i, hi⟩) = some v
          ∧ v.result = RResult.error err ∧ v.dirty = false
          ∧ v.value_at = k.logicalClock + i + 1) := by
    unfold updateOutputsWithError
    rw [hc]
    obtain ⟨h1, h2, h3⟩ := uoeFold cid err c.outputs k hex hnd
    exact ⟨h1, h3⟩
  refine ⟨hmain.1, hmain.2, ?_⟩
  intro i j hi hj hij v w hv hw
  obtain ⟨v', hv', _, _, hvv⟩ := hmain.2 i hi
  obtain ⟨w', hw', _, _, hww⟩ := hmain.2 j hj
  rw [hv] at hv'
  rw [hw] at hw'
  cases hv'
  cases hw'
  rw [hvv, hww]
  omega

/-- C10 witness: the two-output computation `E`; `o1` gets stamp 10 and `o2`
stamp 11 on the error path. -/
theorem error_commit_per_output_ticks_inst :
    ∃ v w, getVariableAny (updateOutputsWithError kTwoOut "E" (Val.vstr "boom")) "o1" = some v
      ∧ getVariableAny (updateOutputsWithError kTwoOut "E" (Val.vstr "boom")) "o2" = some w
      ∧ v.value_at = 10 ∧ w.value_at = 11 ∧ v.value_at ≠ w.value_at := by
  have h := error_commit_per_output_ticks kTwoOut "E" (Val.vstr "boom")
    (mkComp "E" [] [] ["o1", "o2"] true 1 0 8 2) rfl (by decide) (by decide)
  obtain ⟨v, hv1, _, _, hv4⟩ := h.2.1 0 (by decide)
  obtain ⟨w, hw1, _, _, hw4⟩ := h.2.1 1 (by decide)
  exact ⟨v, w, hv1, hw1, hv4, hw4, by omega⟩

theorem setVariableAny_noneKey {k : Kernel} {vid : String} (v : Variable)
    (h : getVariableAny k vid = none) : setVariableAny k vid v = k := by
  unfold getVariableAny at h
  cases hl : lookupA k.vars vid with
  | some w => rw [hl] at h; cases h
  | none =>
    rw [hl] at h
    have h2 : lookupA k.problem_variables vid = none := h
    unfold setVariableAny
    simp [hl, h2]

theorem getVariableAny_set_isSome (k : Kernel) (vid : String) (v : Variable) (y : String) :
    (getVariableAny (setVariableAny k vid v) y).isSome = (getVariableAny k y).isSome := by
  by_cases hy : y = vid
  · subst hy
    cases hv : getVariableAny k y with
    | none => rw [setVariableAny_noneKey v hv, hv]
    | some w =>
      rw [getVariableAny_set_self v (by rw [hv]; rfl)]
      rfl
  · rw [getVariableAny_set_other v hy]

theorem codFold (outs : List String) :
    ∀ (k' : Kernel),
    (∀ y, (getVariableAny (outs.foldl (fun k1 oid =>
        match getVariableAny k1 oid with
        | none => k1
        | some o => cleanVariable (setVariableAny k1 oid { o with dirty := false }) oid) k') y).isSome
      = (getVariableAny k' y).isSome)
    ∧ (∀ y, y ∉ outs →
        getVariableAny (outs.foldl (fun k1 oid =>
          match getVariableAny k1 oid with
          | none => k1
          | some o => cleanVariable (setVariableAny k1 oid { o with dirty := false }) oid) k') y
        = getVariableAny k' y)
    ∧ (∀ oid ∈ outs, (getVariableAny k' oid).isSome → ∃ v,
        getVariableAny (outs.foldl (fun k1 oid =>
          match getVariableAny k1 oid with
          | none => k1
          | some o => cleanVariable (setVariableAny k1 oid { o with dirty := false }) oid) k') oid
        = some v ∧ v.dirty = false)
    ∧ (∀ x, dicRel (getComputation k' x)
        (getComputation (outs.foldl (fun k1 oid =>
          match getVariableAny k1 oid with
          | none => k1
          | some o => cleanVariable (setVariableAny k1 oid { o with dirty := false }) oid) k') x)) := by
  induction outs with
  | nil =>
    intro k'
    exact ⟨fun y => rfl, fun y _ => rfl, fun oid h => absurd h (by simp),
      fun x => dicRel_refl _⟩
  | cons o rest ih =>
    intro k'
    simp only [List.foldl_cons]
    cases ho : getVariableAny k' o with
    | none =>
      obtain ⟨i0, i1, i2, i3⟩ := ih k'
      refine ⟨i0, ?_, ?_, i3⟩
      · intro y hy
        exact i1 y (fun hh => hy (List.mem_cons_of_mem o hh))
      · intro oid hm hs
        cases List.mem_cons.mp hm with
        | inl heq =>
          subst heq
          rw [ho] at hs
          cases hs
        | inr hr => exact i2 oid hr hs
    | some o0 =>
      set k3 := cleanVariable (setVariableAny k' o { o0 with dirty := false }) o with hk3
      have hcl := cleanVariable_spec (setVariableAny k' o { o0 with dirty := false }) o
      obtain ⟨⟨wv, wp, wc, wd⟩, _⟩ := hcl
      have hgAll : ∀ y, getVariableAny k3 y
          = getVariableAny (setVariableAny k' o { o0 with dirty := false }) y :=
        getVariableAny_congr wv wp
      have hself : getVariableAny k3 o = some { o0 with dirty := false } := by
        rw [hgAll o]
        exact getVariableAny_set_self _ (by rw [ho]; rfl)
      have hother : ∀ y, y ≠ o → getVariableAny k3 y = getVariableAny k' y := by
        intro y hy
        rw [hgAll y, getVariableAny_set_other _ hy]
      have hsome : ∀ y, (getVariableAny k3 y).isSome = (getVariableAny k' y).isSome := by
        intro y
        rw [hgAll y, getVariableAny_set_isSome]
      have hdic : ∀ x, dicRel (getComputation k' x) (getComputation k3 x) := by
        intro x
        have hcomps : getComputation (setVariableAny k' o { o0 with dirty := false }) x
            = getComputation k' x :=
          getComputation_congr_comps (setVariableAny_fields k' o _).1 x
        have := wd x
        rw [hcomps] at this
        exact this
      obtain ⟨i0, i1, i2, i3⟩ := ih k3
      refine ⟨?_, ?_, ?_, ?_⟩
      · intro y
        rw [i0 y, hsome y]
      · intro y hy
        have hyo : y ≠ o := fun hh => hy (hh ▸ List.mem_cons_self o rest)
        have hyr : y ∉ rest := fun hh => hy (List.mem_cons_of_mem o hh)
        rw [i1 y hyr, hother y hyo]
      · intro oid hm hs
        by_cases hin : oid ∈ rest
        · refine i2 oid hin ?_
          rw [hsome oid]
          exact hs
        · have heq : oid = o := by
            cases List.mem_cons.mp hm with
            | inl h1 => exact h1
            | inr h2 => exact absurd h2 hin
          subst heq
          refine ⟨{ o0 with dirty := false }, ?_, rfl⟩
          rw [i1 oid hin, hself]
      · intro x
        exact dicRel_trans (hdic x) (i3 x)

theorem compScalar_dirty {c c' : RComputation} (h : compScalar c' = compScalar c) :
    c'.dirty = c.dirty := by
  simp [compScalar] at h
  exact h.2.2.2.2.1

/-! ## C7 — input pruning -/
/-- C7: on dispatch of a Ready computation, when `input_version > 0` and no
runtime input's `value_at` exceeds it, the body is skipped: `maybeSkipExecution`
reports the skip, every output is marked clean and the computation's dirty
flag is cleared; when `input_version = 0` (never executed) the skip check
never fires and the kernel is untouched. -/
theorem input_pruning_skip (k : Kernel) (cid : String) (c : RComputation)
    (hc : getComputation k cid = some c) :
    ((0 < c.input_version →
      (getMaxInputVersion k c.runtimeInputs : Int) ≤ c.input_version →
      (maybeSkipExecution k cid).2 = true
      ∧ (∀ oid ∈ c.outputs, (getVariableAny k oid).isSome → ∃ v,
          getVariableAny (maybeSkipExecution k cid).1 oid = some v ∧ v.dirty = false)
      ∧ (∃ c', getComputation (maybeSkipExecution k cid).1 cid = some c'
          ∧ c'.dirty = false))
    ∧ (c.input_version = 0 → maybeSkipExecution k cid = (k, false))) := by
  constructor
  · intro hpos hmax
    have hse : shouldExecute k c = false := by
      unfold shouldExecute
      have h0 : (c.input_version == 0) = false := by
        have : ¬(c.input_version = 0) := by omega
        simpa using this
      rw [h0]
      simp only [Bool.false_eq_true, if_false]
      exact decide_eq_false (not_lt.mpr hmax)
    have hms : maybeSkipExecution k cid
        = (setDirty (cleanOutputDirty k cid) cid false, true) := by
      unfold maybeSkipExecution
      rw [hc]
      dsimp only
      rw [if_neg (by rw [hse]; exact Bool.false_ne_true)]
    have hcod : cleanOutputDirty k cid
        = c.outputs.foldl (fun k1 oid =>
            match getVariableAny k1 oid with
            | none => k1
            | some o => cleanVariable (setVariableAny k1 oid { o with dirty := false }) oid) k := by
      unfold cleanOutputDirty
      rw [hc]
    obtain ⟨f0, f1, f2, f3⟩ := codFold c.outputs k
    have hcomp1 : ∃ c1, getComputation (cleanOutputDirty k cid) cid = some c1 := by
      rw [hcod]
      have := f3 cid
      rw [hc] at this
      cases hg : getComputation (c.outputs.foldl (fun k1 oid =>
          match getVariableAny k1 oid with
          | none => k1
          | some o => cleanVariable (setVariableAny k1 oid { o with dirty := false }) oid) k) cid with
      | none => rw [hg] at this; cases this
      | some c1 => exact ⟨c1, rfl⟩
    obtain ⟨c1, hc1⟩ := hcomp1
    have heffd := eff_setDirty (cleanOutputDirty k cid) cid false
    obtain ⟨d1, d2, d3, d4, d5, d6, d7⟩ := heffd
    rw [hms]
    refine ⟨rfl, ?_, ?_⟩
    · intro oid hm hs
      obtain ⟨v, hv, hvd⟩ := by
        rw [hcod] at *
        exact f2 oid hm hs
      refine ⟨v, ?_, hvd⟩
      dsimp only
      rw [getVariableAny_congr d1 d2 oid, hcod]
      exact hv
    · obtain ⟨c', hg', hs'⟩ := d6 c1 hc1
      exact ⟨c', hg', by rw [compScalar_dirty hs']⟩
  · intro h0
    unfold maybeSkipExecution
    rw [hc]
    dsimp only
    rw [if_pos ?hcond]
    case hcond =>
      unfold shouldExecute
      rw [show (c.input_version == 0) = true by simpa using h0]
      simp

/-- C7 witness: the pruning scenario `kPrune` — `G` committed at
`input_version = 2` with its only input still at `value_at = 2` is skipped;
output `g` and `G` itself become clean. -/
theorem input_pruning_skip_inst :
    (maybeSkipExecution kPrune "G").2 = true
    ∧ (∃ v, getVariableAny (maybeSkipExecution kPrune "G").1 "g" = some v
        ∧ v.dirty = false)
    ∧ (∃ c', getComputation (maybeSkipExecution kPrune "G").1 "G" = some c'
        ∧ c'.dirty = false) := by
  have h := (input_pruning_skip kPrune "G" (mkComp "G" ["x"] ["x"] ["g"] true 1 0 9 2)
    rfl).1 (by decide) (by decide)
  obtain ⟨h1, h2, h3⟩ := h
  refine ⟨h1, ?_, h3⟩
  exact h2 "g" (by decide) (by decide)

theorem compScalar_dicEq {c c' : RComputation} (h : compScalar c' = compScalar c) :
    c'.dirtyInputCount = c.dirtyInputCount :=
  (compScalar_split h).2

theorem compScalar_causeAtEq {c c' : RComputation} (h : compScalar c' = compScalar c) :
    c'.cause_at = c.cause_at := by
  simp [compScalar] at h
  exact h.2.2.2.2.2.2.2.1

/-! ## C4 — dirtyInputCount bookkeeping in downward propagation -/
/-- C4: in `_propagateCauseAtDownward` the dirty-input-count step precedes
the cause-monotonicity early return, so a clean-to-dirty edge from a dirty
computed input increments the consumer's `dirtyInputCount` even when
`newCause ≤ comp.cause_at`; consequently on the quiesced diamond, a source
update leaves every computation's `dirtyInputCount` equal to its number of
dirty computed runtime inputs, with the join `D` at exactly 2. -/
theorem dirtyInputCount_edge_increment :
    (∀ (fuel : Nat) (k : Kernel) (cid vid : String) (nc : Nat)
      (c : RComputation) (v : Variable),
      getComputation k cid = some c → getVariableAny k vid = some v →
      v.id = vid → v.producer.isSome = true → v.dirty = true →
      c.staticInputs.contains vid = true → nc ≤ c.cause_at →
      ∃ c', getComputation
          (propagateCauseAtDownward (fuel + 1) k cid nc (some vid) true) cid = some c'
        ∧ c'.dirtyInputCount = c.dirtyInputCount + 1)
    ∧ Except.map (fun r => (dirtyInputCountInvariant r,
        (getComputation r "D").map (fun c => c.dirtyInputCount)))
        (updateSource 10 kDiamond "a" (Val.vint 10)) = Except.ok (true, some 2) := by
  constructor
  · intro fuel k cid vid nc c v hc hv hvid hprod hdirty hinput hle
    have hinc : tryIncrementDirtyInputCount k cid (some vid) true
        = setDirtyInputCount k cid (c.dirtyInputCount + 1) := by
      unfold tryIncrementDirtyInputCount
      rw [hc]
      dsimp only
      rw [hv]
      dsimp only
      have hio : isInputOfComputation v c = true := by
        unfold isInputOfComputation
        rw [hvid]
        exact hinput
      rw [if_neg (by rw [hio]; simp)]
      rw [if_pos (by rw [hprod, hdirty]; rfl)]
    obtain ⟨e1, e2, e3, e4, e5, e6, e7⟩ :=
      eff_setDirtyInputCount k cid (c.dirtyInputCount + 1)
    obtain ⟨c1, hc1, hs1⟩ := e6 c hc
    have hdic1 : c1.dirtyInputCount = c.dirtyInputCount + 1 := by
      have := compScalar_dicEq hs1
      simpa using this
    have hca1 : c1.cause_at = c.cause_at := by
      have := compScalar_causeAtEq hs1
      simpa using this
    show ∃ c', getComputation
        (propagateCauseAtDownward (Nat.succ fuel) k cid nc (some vid) true) cid = some c'
      ∧ c'.dirtyInputCount = c.dirtyInputCount + 1
    unfold propagateCauseAtDownward
    rw [hinc]
    dsimp only
    rw [hc1]
    dsimp only
    rw [if_pos (by rw [hca1]; exact hle)]
    exact ⟨c1, hc1, hdic1⟩
  · rfl

/-- C4 witness: a consumer with one dirty computed input already at the
propagated cause gets its counter bumped from 0 to 1 by the early-returning
propagation call. -/
theorem dirtyInputCount_edge_increment_inst :
    ∃ c', getComputation
        (propagateCauseAtDownward 3 kTwoOut "F" 8 (some "o1") true) "F" = some c'
      ∧ c'.dirtyInputCount = 2 := by
  obtain ⟨c', hg, hd⟩ := dirtyInputCount_edge_increment.1 2 kTwoOut "F" "o1" 8
    (mkComp "F" ["o1"] ["o1"] [] true 1 1 8 2)
    (mkComputedVar "o1" (.success (.vint 5)) 3 8 true "E" ["F"] 1 1)
    rfl rfl rfl rfl rfl rfl (by decide)
  exact ⟨c', hg, by rw [hd]; decide⟩

theorem presRel_refl (k : Kernel) : PresRel k k :=
  ⟨rfl, rfl, fun _ => rfl, fun _ => rfl, fun _ _ => rfl⟩

theorem presRel_notOutput_transfer {k k' : Kernel}
    (h3 : ∀ x, (getComputation k' x).map compShapeP = (getComputation k x).map compShapeP)
    {y : String} (hy : ∀ cid0 c0, getComputation k cid0 = some c0 → y ∉ c0.outputs) :
    ∀ cid0 c0, getComputation k' cid0 = some c0 → y ∉ c0.outputs := by
  intro cid0 c0 hg
  have := h3 cid0
  rw [hg] at this
  cases hk : getComputation k cid0 with
  | none => rw [hk] at this; cases this
  | some c1 =>
    rw [hk] at this
    have houts : c0.outputs = c1.outputs := by
      simp [compShapeP] at this
      exact this.2.2.2.1
    rw [houts]
    exact hy cid0 c1 hk

theorem presRel_trans {k1 k2 k3 : Kernel} (h : PresRel k1 k2) (h2 : PresRel k2 k3) :
    PresRel k1 k3 := by
  obtain ⟨a1, a2, a3, a4, a5⟩ := h
  obtain ⟨b1, b2, b3, b4, b5⟩ := h2
  refine ⟨b1.trans a1, b2.trans a2, fun x => (b3 x).trans (a3 x),
    fun y => (b4 y).trans (a4 y), ?_⟩
  intro y hy
  have hy2 := presRel_notOutput_transfer a3 hy
  exact (b5 y hy2).trans (a5 y hy)

theorem compScalar_to_shapeP {c c' : RComputation} (h : compScalar c' = compScalar c) :
    compShapeP c' = compShapeP c := by
  simp [compScalar] at h
  simp [compShapeP, h.1, h.2.1, h.2.2.1, h.2.2.2.1, h.2.2.2.2.2.1, h.2.2.2.2.2.2.2.2]

theorem presRel_of_setterEff {k k' : Kernel} {cid : String}
    {mod : RComputation → RComputation}
    (h : SetterEff k k' cid mod) (hm : ∀ c, compShapeP (mod c) = compShapeP c) :
    PresRel k k' := by
  obtain ⟨h1, h2, h3, h4, h5, h6, h7⟩ := h
  refine ⟨h3, h4, ?_, ?_, ?_⟩
  · intro x
    by_cases hx : x = cid
    · subst hx
      cases hcx : getComputation k x with
      | none => rw [h7 hcx, hcx]
      | some c =>
        obtain ⟨c', hg, hs⟩ := h6 c hcx
        rw [hg]
        have : compShapeP c' = compShapeP c := by
          rw [compScalar_to_shapeP hs, hm c]
        simp [this]
    · rw [h5 x hx]
  · intro y
    rw [getVariableAny_congr h1 h2 y]
  · intro y _
    rw [getVariableAny_congr h1 h2 y]

theorem presRel_setVarShape {ka : Kernel} {oid : String} {o o2 : Variable}
    (ho : getVariableAny ka oid = some o) (hsh : varShapeP o2 = varShapeP o)
    (hout : ∃ cw : String × RComputation, getComputation ka cw.1 = some cw.2 ∧ oid ∈ cw.2.outputs) :
    PresRel ka (setVariableAny ka oid o2) := by
  obtain ⟨hf1, hf2, hf3, _⟩ := setVariableAny_fields ka oid o2
  refine ⟨hf2, hf3, ?_, ?_, ?_⟩
  · intro x
    unfold getComputation
    rw [hf1]
  · intro y
    by_cases hy : y = oid
    · subst hy
      rw [getVariableAny_set_self o2 (by rw [ho]; rfl), ho]
      simp [hsh]
    · rw [getVariableAny_set_other o2 hy]
  · intro y hy
    obtain ⟨cw, hcw, hmem⟩ := hout
    have hne : y ≠ oid := fun he => (hy cw.1 cw.2 hcw) (he ▸ hmem)
    exact getVariableAny_set_other o2 hne

theorem presRel_tryInc (k : Kernel) (cid : String) (sv : Option String) (b : Bool) :
    PresRel k (tryIncrementDirtyInputCount k cid sv b) := by
  unfold tryIncrementDirtyInputCount
  repeat' split
  all_goals first
    | exact presRel_refl k
    | exact presRel_of_setterEff (eff_setDirtyInputCount k cid _) (fun _ => rfl)

theorem presRel_setCauseAt (k : Kernel) (cid : String) (nc : Nat) :
    PresRel k (setCauseAt k cid nc) :=
  presRel_of_setterEff (eff_setCauseAt k cid nc) (fun _ => rfl)

theorem presRel_setDirty (k : Kernel) (cid : String) (b : Bool) :
    PresRel k (setDirty k cid b) :=
  presRel_of_setterEff (eff_setDirty k cid b) (fun _ => rfl)

/-- Downward cause propagation only raises computations' `cause_at`,
`dirty`, `dirtyInputCount` and task state, and touches only variables that
are the declared output of some computation; the logical clock, the
notification log, and all other fields are preserved. -/
theorem propagate_pres : ∀ (fuel : Nat) (k : Kernel) (cid : String) (nc : Nat)
    (sv : Option String) (b : Bool),
    PresRel k (propagateCauseAtDownward fuel k cid nc sv b)
  | 0, k, _, _, _, _ => presRel_refl k
  | Nat.succ fuel, k, cid, nc, sv, b => by
    show PresRel k (propagateCauseAtDownward (Nat.succ fuel) k cid nc sv b)
    unfold propagateCauseAtDownward
    dsimp only
    have h1 : PresRel k (tryIncrementDirtyInputCount k cid sv b) :=
      presRel_tryInc k cid sv b
    cases hc : getComputation (tryIncrementDirtyInputCount k cid sv b) cid with
    | none => exact h1
    | some c =>
      dsimp only
      split
      · exact h1
      have h2 := presRel_setCauseAt (tryIncrementDirtyInputCount k cid sv b) cid nc
      have h12 := presRel_trans h1 h2
      have h3 := presRel_setDirty (setCauseAt (tryIncrementDirtyInputCount k cid sv b) cid nc)
        cid true
      have h13 := presRel_trans h12 h3
      cases hc3 : getComputation (setDirty (setCauseAt
          (tryIncrementDirtyInputCount k cid sv b) cid nc) cid true) cid with
      | none => exact h13
      | some c3 =>
        dsimp only
        refine presRel_trans h13 (foldlInv (fun s => PresRel (setDirty (setCauseAt
          (tryIncrementDirtyInputCount k cid sv b) cid nc) cid true) s) _ c3.outputs
          ?_ _ (presRel_refl _))
        intro ka oid hoid ha
        dsimp only
        cases ho : getVariableAny ka oid with
        | none => exact ha
        | some o =>
          dsimp only
          have hout : ∃ cw : String × RComputation,
              getComputation ka cw.1 = some cw.2 ∧ oid ∈ cw.2.outputs := by
            have h3a := ha.2.2.1 cid
            rw [hc3] at h3a
            cases hka : getComputation ka cid with
            | none => rw [hka] at h3a; cases h3a
            | some cka =>
              rw [hka] at h3a
              refine ⟨(cid, cka), hka, ?_⟩
              have houts : cka.outputs = c3.outputs := by
                simp [compShapeP] at h3a
                exact h3a.2.2.2.1
              rw [houts]
              exact hoid
          have hb : PresRel ka (setVariableAny ka oid
              { o with cause_at := ((getComputation ka cid).map
                  (fun cc => cc.cause_at)).getD nc, dirty := true }) :=
            presRel_setVarShape ho rfl hout
          refine presRel_trans ha (presRel_trans hb (foldlInv
            (fun s => PresRel (setVariableAny ka oid
              { o with cause_at := ((getComputation ka cid).map
                  (fun cc => cc.cause_at)).getD nc, dirty := true }) s)
            _ o.dependents ?_ _ (presRel_refl _)))
          intro kc did _ hcinv
          exact presRel_trans hcinv (propagate_pres fuel kc did nc (some oid) (!o.dirty))

/-- `_markDirty` satisfies the same preservation contract as the downward
propagation it fans out. -/
theorem markDirty_pres (fuel : Nat) (k : Kernel) (vid : String) (t : Nat) (b : Bool) :
    PresRel k (markDirty fuel k vid t b) := by
  unfold markDirty
  cases hv : getVariableAny k vid with
  | none => exact presRel_refl k
  | some v =>
    dsimp only
    refine foldlInv (fun s => PresRel k s) _ v.dependents ?_ k (presRel_refl k)
    intro k1 did _ h1
    exact presRel_trans h1 (propagate_pres fuel k1 did t (some vid) b)

/-! ## C8 — updateSource clock and timestamp discipline -/
theorem updateSource_tail (fuel : Nat) (k0 : Kernel) (vid : String) (v2 : Variable)
    (t : Nat) (hsome : (getVariableAny k0 vid).isSome)
    (hout0 : ∀ cid0 c0, getComputation k0 cid0 = some c0 → vid ∉ c0.outputs) :
    getVariableAny (cleanVariable (markDirty fuel (setVariableAny k0 vid v2) vid t true) vid)
        vid = some v2
    ∧ (cleanVariable (markDirty fuel (setVariableAny k0 vid v2)
        vid t true) vid).logicalClock = k0.logicalClock := by
  have hset : getVariableAny (setVariableAny k0 vid v2) vid = some v2 :=
    getVariableAny_set_self v2 hsome
  have hcomp1 : ∀ x, getComputation (setVariableAny k0 vid v2) x = getComputation k0 x := by
    intro x
    unfold getComputation
    rw [(setVariableAny_fields k0 vid v2).1]
  have hpres := markDirty_pres fuel (setVariableAny k0 vid v2) vid t true
  have hy1 : ∀ cid0 c0, getComputation (setVariableAny k0 vid v2) cid0 = some c0 →
      vid ∉ c0.outputs := by
    intro cid0 c0 hg
    rw [hcomp1 cid0] at hg
    exact hout0 cid0 c0 hg
  have hvar2 : getVariableAny (markDirty fuel (setVariableAny k0 vid v2) vid t true) vid
      = some v2 := (hpres.2.2.2.2 vid hy1).trans hset
  have hclk1 : (setVariableAny k0 vid v2).logicalClock = k0.logicalClock :=
    (setVariableAny_fields k0 vid v2).2.1
  obtain ⟨hw, _⟩ := cleanVariable_spec (markDirty fuel (setVariableAny k0 vid v2) vid t true) vid
  refine ⟨?_, ?_⟩
  · rw [getVariableAny_congr hw.1 hw.2.1 vid]
    exact hvar2
  · rw [hw.2.2.1, hpres.1, hclk1]

/-- C8: each `updateSource` call on an existing source variable increments
the logical clock exactly once; the variable comes out with `cause_at` equal
to the new clock value even when the new value is deep-equal to the old one,
with `value_at` (and the stored result) updated only when the value actually
changed under deep equality, and with `dirty = false`. -/
theorem updateSource_clock_and_stamps (fuel : Nat) (k : Kernel) (vid : String)
    (value : Val) (v : Variable)
    (hv : getVariableAny k vid = some v) (hsrc : v.producer = none)
    (hout : ∀ p ∈ k.computations, vid ∉ p.2.outputs) :
    ∃ r v', updateSource fuel k vid value = Except.ok r
      ∧ r.logicalClock = k.logicalClock + 1
      ∧ getVariableAny r vid = some v'
      ∧ v'.cause_at = k.logicalClock + 1
      ∧ v'.dirty = false
      ∧ v'.value_at
          = (if deepEqual (oldSuccessValue v.result) value then v.value_at
             else k.logicalClock + 1)
      ∧ v'.result
          = (if deepEqual (oldSuccessValue v.result) value then v.result
             else RResult.success value) := by
  have hv0 : getVariableAny { k with logicalClock := k.logicalClock + 1 } vid = some v := hv
  have hout0 : ∀ cid0 c0,
      getComputation { k with logicalClock := k.logicalClock + 1 } cid0 = some c0 →
      vid ∉ c0.outputs := by
    intro cid0 c0 hg
    exact hout (cid0, c0) (lookupA_mem hg)
  unfold updateSource
  dsimp only
  rw [hv0]
  dsimp only
  rw [if_neg (show ¬(v.producer.isSome = true) from by rw [hsrc]; simp)]
  cases hdq : deepEqual (oldSuccessValue v.result) value with
  | true =>
    rw [if_neg (by simp)]
    obtain ⟨h1, h2⟩ := updateSource_tail fuel { k with logicalClock := k.logicalClock + 1 }
      vid { v with cause_at := k.logicalClock + 1, dirty := false } (k.logicalClock + 1)
      (by rw [hv0]; rfl) hout0
    refine ⟨_, _, rfl, h2, h1, rfl, rfl, ?_, ?_⟩
    · rw [if_pos rfl]
    · rw [if_pos rfl]
  | false =>
    rw [if_pos (show (!false) = true from rfl)]
    obtain ⟨h1, h2⟩ := updateSource_tail fuel { k with logicalClock := k.logicalClock + 1 }
      vid
      { v with
        result := RResult.success value,
        value_at := k.logicalClock + 1,
        cause_at := k.logicalClock + 1,
        dirty := false }
      (k.logicalClock + 1) (by rw [hv0]; rfl) hout0
    refine ⟨_, _, rfl, h2, h1, rfl, rfl, ?_, ?_⟩
    · rw [if_neg (by simp)]
    · rw [if_neg (by simp)]

/-- C8 witness: updating source `a` of the quiesced diamond kernel with a
changed value yields a kernel at clock 5 whose `a` carries
`cause_at = value_at = 5` and `dirty = false`. -/
theorem updateSource_clock_and_stamps_witness :
    ∃ r v', updateSource 10 kDiamond "a" (Val.vint 5) = Except.ok r
      ∧ r.logicalClock = kDiamond.logicalClock + 1
      ∧ getVariableAny r "a" = some v'
      ∧ v'.cause_at = kDiamond.logicalClock + 1
      ∧ v'.dirty = false := by
  obtain ⟨r, v', e1, e2, e3, e4, e5, _⟩ :=
    updateSource_clock_and_stamps 10 kDiamond "a" (Val.vint 5) _ rfl rfl (by decide)
  exact ⟨r, v', e1, e2, e3, e4, e5⟩

/-! ## C5 — abort-on-cause-raise characterization and the dynamic-attach pre-bump -/
theorem getComputation_set_self {k : Kernel} {cid : String} {c0 : RComputation}
    (c : RComputation) (hc : getComputation k cid = some c0) :
    getComputation (setComputation k cid c) cid = some c := by
  rw [getComputation_setComputation, if_pos rfl, hc]
  rfl

theorem tryInc_false (k : Kernel) (cid : String) (sv : Option String) :
    tryIncrementDirtyInputCount k cid sv false = k := by
  unfold tryIncrementDirtyInputCount
  repeat' split
  all_goals first | rfl | simp_all

theorem tryInc_other (k : Kernel) (cid : String) (sv : Option String) (b : Bool)
    (x : String) (hx : x ≠ cid) :
    getComputation (tryIncrementDirtyInputCount k cid sv b) x = getComputation k x := by
  unfold tryIncrementDirtyInputCount
  repeat' split
  all_goals first
    | rfl
    | exact (eff_setDirtyInputCount k cid _).2.2.2.2.1 x hx

theorem setCauseAt_other (k : Kernel) (cid : String) (nc : Nat) (x : String) (hx : x ≠ cid) :
    getComputation (setCauseAt k cid nc) x = getComputation k x :=
  (eff_setCauseAt k cid nc).2.2.2.2.1 x hx

theorem setDirty_other (k : Kernel) (cid : String) (b : Bool) (x : String) (hx : x ≠ cid) :
    getComputation (setDirty k cid b) x = getComputation k x :=
  (eff_setDirty k cid b).2.2.2.2.1 x hx

theorem setCauseAt_noAbort {k : Kernel} {cid : String} {nc : Nat} {c : RComputation}
    {t : RunningTask} (hc : getComputation k cid = some c) (ht : c.runningTask = some t)
    (hle : nc ≤ t.cause_at) :
    getComputation (setCauseAt k cid nc) cid = some { c with cause_at := nc } := by
  unfold setCauseAt
  rw [hc]
  dsimp only
  split
  · unfold checkAbortOnCauseAtChange
    rw [getComputation_set_self _ hc]
    dsimp only
    rw [ht]
    dsimp only
    rw [if_neg (by omega)]
    exact getComputation_set_self _ hc
  · exact getComputation_set_self _ hc

theorem setDirty_true_keep {k : Kernel} {cid : String} {c : RComputation}
    {t : RunningTask} (hc : getComputation k cid = some c) (ht : c.runningTask = some t) :
    getComputation (setDirty k cid true) cid = some { c with dirty := true } := by
  unfold setDirty
  rw [hc]
  dsimp only
  split
  next hd =>
    have hd' : c.dirty = true := eq_of_beq hd
    rw [hc]
    cases c
    simp_all
  next hd =>
    have hd' : c.dirty = false := by
      cases hcd : c.dirty
      · rfl
      · rw [hcd] at hd; simp at hd
    unfold onStateChange
    rw [getComputation_set_self _ hc]
    dsimp only
    split
    next hsame =>
      exact getComputation_set_self _ hc
    next hsame =>
      unfold checkAbortNeeded
      rw [getComputation_set_self _ hc]
      dsimp only
      rw [if_pos (by rw [RComputation.state, hd', stateOf]; simp)]
      unfold checkScheduleNeeded
      rw [getComputation_set_self _ hc]
      dsimp only
      split
      next hsched =>
        unfold addToReadyQueue
        rw [getComputation_set_self _ hc]
        dsimp only
        split
        · rw [getComputation]
          rw [show ({ setComputation k cid { c with dirty := true } with
              readyQueue := (setComputation k cid { c with dirty := true }).readyQueue
                ++ [cid] } : Kernel).computations
            = (setComputation k cid { c with dirty := true }).computations from rfl]
          rw [← getComputation]
          exact getComputation_set_self _ hc
        · exact getComputation_set_self _ hc
      next =>
        exact getComputation_set_self _ hc

/-- C5 helper, part (a): on a computation with a running task, raising
`cause_at` clears and aborts the task exactly when the task's captured
`cause_at` is below the new value, and leaves it untouched otherwise. -/
theorem setCauseAt_abort_iff {k : Kernel} {cid : String} {nc : Nat} {c : RComputation}
    {t : RunningTask} (hc : getComputation k cid = some c) (ht : c.runningTask = some t)
    (hraise : c.cause_at < nc) :
    ∃ c', getComputation (setCauseAt k cid nc) cid = some c'
      ∧ (if t.cause_at < nc
         then c'.runningTask = none ∧ { t with aborted := true } ∈ c'.abortingTasks
         else c'.runningTask = some t ∧ c'.abortingTasks = c.abortingTasks) := by
  unfold setCauseAt
  rw [hc]
  dsimp only
  rw [if_pos (by simp; omega)]
  unfold checkAbortOnCauseAtChange
  rw [getComputation_set_self _ hc]
  dsimp only
  rw [ht]
  dsimp only
  by_cases habort : t.cause_at < nc
  · rw [if_pos habort]
    unfold abortTask
    rw [getComputation_set_self _ hc]
    dsimp only
    refine ⟨{ c with
        cause_at := nc,
        runningTask := none,
        abortingTasks := c.abortingTasks ++ [{ t with aborted := true }] }, ?_, ?_⟩
    · split
      · rw [getComputation,
          (addToReadyQueue_fields _ cid).2.2.2.2, ← getComputation]
        exact getComputation_set_self _ (getComputation_set_self _ hc)
      · exact getComputation_set_self _ (getComputation_set_self _ hc)
    · rw [if_pos habort]
      exact ⟨rfl, by simp⟩
  · rw [if_neg habort]
    refine ⟨{ c with cause_at := nc, runningTask := some t }, ?_, ?_⟩
    · exact getComputation_set_self _ hc
    · rw [if_neg habort]
      exact ⟨rfl, rfl⟩

theorem foldl_append_mem {α β : Type} (f : β → List α) :
    ∀ (l : List β) (init : List α) (a : α),
      (a ∈ l.foldl (fun acc b2 => acc ++ f b2) init ↔ a ∈ init ∨ ∃ b2, b2 ∈ l ∧ a ∈ f b2)
  | [], init, a => by simp
  | b :: l, init, a => by
    simp only [List.foldl_cons]
    rw [foldl_append_mem f l (init ++ f b) a]
    simp only [List.mem_append, List.mem_cons]
    constructor
    · rintro ((h | h) | ⟨b2, hb2, ha⟩)
      · exact Or.inl h
      · exact Or.inr ⟨b, Or.inl rfl, h⟩
      · exact Or.inr ⟨b2, Or.inr hb2, ha⟩
    · rintro (h | ⟨b2, (rfl | hb2), ha⟩)
      · exact Or.inl (Or.inl h)
      · exact Or.inl (Or.inr ha)
      · exact Or.inr ⟨b2, hb2, ha⟩

theorem foldl_append_congr {α β : Type} (f g : β → List α) :
    ∀ (l : List β) (init : List α), (∀ b, b ∈ l → f b = g b) →
      l.foldl (fun acc b2 => acc ++ f b2) init = l.foldl (fun acc b2 => acc ++ g b2) init
  | [], _, _ => rfl
  | b :: l, init, h => by
    simp only [List.foldl_cons]
    rw [h b (List.mem_cons_self b l)]
    exact foldl_append_congr f g l _ (fun b2 hb => h b2 (List.mem_cons_of_mem b hb))

theorem compOutputsD_eq {k k' : Kernel}
    (h3 : ∀ x, (getComputation k' x).map compShapeP = (getComputation k x).map compShapeP)
    (x : String) : compOutputsD k' x = compOutputsD k x := by
  unfold compOutputsD
  have hx := h3 x
  cases h1 : getComputation k' x <;> cases h2 : getComputation k x <;>
    rw [h1, h2] at hx <;> first
    | rfl
    | cases hx
    | (simp [compShapeP] at hx
       simp [hx.2.2.2.1])

theorem varDependentsD_eq {k k' : Kernel}
    (h4 : ∀ y, (getVariableAny k' y).map varShapeP = (getVariableAny k y).map varShapeP)
    (y : String) : varDependentsD k' y = varDependentsD k y := by
  unfold varDependentsD
  have hy := h4 y
  cases h1 : getVariableAny k' y <;> cases h2 : getVariableAny k y <;>
    rw [h1, h2] at hy <;> first
    | rfl
    | cases hy
    | (simp [varShapeP] at hy
       simp [hy.2.2.2.2.1])

theorem reach_stable {k k' : Kernel}
    (h3 : ∀ x, (getComputation k' x).map compShapeP = (getComputation k x).map compShapeP)
    (h4 : ∀ y, (getVariableAny k' y).map varShapeP = (getVariableAny k y).map varShapeP) :
    ∀ (n : Nat) (d : String), reachComps k' n d = reachComps k n d
  | 0, d => rfl
  | Nat.succ n, d => by
    show reachComps k' (Nat.succ n) d = reachComps k (Nat.succ n) d
    unfold reachComps
    rw [compOutputsD_eq h3 d]
    congr 1
    refine foldl_append_congr _ _ (compOutputsD k d) [] ?_
    intro oid _
    rw [varDependentsD_eq h4 oid]
    refine foldl_append_congr _ _ (varDependentsD k oid) [] ?_
    intro did _
    exact reach_stable h3 h4 n did

theorem reach_succ_elim {k : Kernel} {n : Nat} {cid x : String}
    (hx : x ∉ reachComps k (Nat.succ n) cid) :
    x ≠ cid ∧ ∀ oid, oid ∈ compOutputsD k cid → ∀ did, did ∈ varDependentsD k oid →
      x ∉ reachComps k n did := by
  constructor
  · intro he
    apply hx
    show x ∈ reachComps k (Nat.succ n) cid
    unfold reachComps
    exact he ▸ List.mem_cons_self _ _
  · intro oid ho did hd hr
    apply hx
    show x ∈ reachComps k (Nat.succ n) cid
    unfold reachComps
    refine List.mem_cons_of_mem _ ?_
    rw [foldl_append_mem]
    refine Or.inr ⟨oid, ho, ?_⟩
    rw [foldl_append_mem]
    exact Or.inr ⟨did, hd, hr⟩

/-- A downward propagation of depth `fuel` starting at `cid` leaves every
computation outside `reachComps k fuel cid` untouched. -/
theorem propagate_comp_untouched :
    ∀ (fuel : Nat) (k : Kernel) (cid : String) (nc : Nat) (sv : Option String) (b : Bool)
      (x : String), x ∉ reachComps k fuel cid →
      getComputation (propagateCauseAtDownward fuel k cid nc sv b) x = getComputation k x
  | 0, _, _, _, _, _, _, _ => rfl
  | Nat.succ fuel, k, cid, nc, sv, b, x, hx => by
    obtain ⟨hxc, hrest⟩ := reach_succ_elim hx
    show getComputation (propagateCauseAtDownward (Nat.succ fuel) k cid nc sv b) x
      = getComputation k x
    unfold propagateCauseAtDownward
    dsimp only
    have e1 : getComputation (tryIncrementDirtyInputCount k cid sv b) x = getComputation k x :=
      tryInc_other k cid sv b x hxc
    cases hc : getComputation (tryIncrementDirtyInputCount k cid sv b) cid with
    | none => exact e1
    | some c =>
      dsimp only
      split
      · exact e1
      have e2 : getComputation (setCauseAt (tryIncrementDirtyInputCount k cid sv b) cid nc) x
          = getComputation k x := (setCauseAt_other _ cid nc x hxc).trans e1
      have e3 : getComputation (setDirty (setCauseAt
            (tryIncrementDirtyInputCount k cid sv b) cid nc) cid true) x
          = getComputation k x := (setDirty_other _ cid true x hxc).trans e2
      have hp3 : PresRel k (setDirty (setCauseAt
          (tryIncrementDirtyInputCount k cid sv b) cid nc) cid true) :=
        presRel_trans (presRel_trans (presRel_tryInc k cid sv b)
          (presRel_setCauseAt _ cid nc)) (presRel_setDirty _ cid true)
      cases hc3 : getComputation (setDirty (setCauseAt
          (tryIncrementDirtyInputCount k cid sv b) cid nc) cid true) cid with
      | none => exact e3
      | some c3 =>
        dsimp only
        have hcoutk : compOutputsD k cid = c3.outputs := by
          rw [← compOutputsD_eq hp3.2.2.1 cid]
          unfold compOutputsD
          rw [hc3]
        refine And.right (foldlInv (fun s => PresRel (setDirty (setCauseAt
          (tryIncrementDirtyInputCount k cid sv b) cid nc) cid true) s
            ∧ getComputation s x = getComputation k x) _ c3.outputs
          ?_ _ ⟨presRel_refl _, e3⟩)
        intro ka oid hoid hP
        dsimp only
        cases ho : getVariableAny ka oid with
        | none => exact hP
        | some o =>
          dsimp only
          have hka : PresRel k ka := presRel_trans hp3 hP.1
          have hout : ∃ cw : String × RComputation,
              getComputation ka cw.1 = some cw.2 ∧ oid ∈ cw.2.outputs := by
            have h3a := hP.1.2.2.1 cid
            rw [hc3] at h3a
            cases hkac : getComputation ka cid with
            | none => rw [hkac] at h3a; cases h3a
            | some cka =>
              rw [hkac] at h3a
              refine ⟨(cid, cka), hkac, ?_⟩
              have houts : cka.outputs = c3.outputs := by
                simp [compShapeP] at h3a
                exact h3a.2.2.2.1
              rw [houts]
              exact hoid
          have hdeps : o.dependents = varDependentsD k oid := by
            rw [← varDependentsD_eq hka.2.2.2.1 oid]
            unfold varDependentsD
            rw [ho]
          have hb2 : PresRel ka (setVariableAny ka oid
              { o with cause_at := ((getComputation ka cid).map
                  (fun cc => cc.cause_at)).getD nc, dirty := true }) :=
            presRel_setVarShape ho rfl hout
          have hbx : getComputation (setVariableAny ka oid
              { o with cause_at := ((getComputation ka cid).map
                  (fun cc => cc.cause_at)).getD nc, dirty := true }) x
              = getComputation k x := by
            rw [getComputation, (setVariableAny_fields ka oid _).1, ← getComputation]
            exact hP.2
          refine foldlInv (fun s => PresRel (setDirty (setCauseAt
            (tryIncrementDirtyInputCount k cid sv b) cid nc) cid true) s
              ∧ getComputation s x = getComputation k x) _ o.dependents
            ?_ _ ⟨presRel_trans hP.1 hb2, hbx⟩
          intro kc did hdid hQ
          have hkc : PresRel k kc := presRel_trans hp3 hQ.1
          have hreachkc : x ∉ reachComps kc fuel did := by
            rw [reach_stable hkc.2.2.1 hkc.2.2.2.1 fuel did]
            exact hrest oid (by rw [hcoutk]; exact hoid) did (by rw [← hdeps]; exact hdid)
          refine ⟨presRel_trans hQ.1 (propagate_pres fuel kc did nc (some oid) (!o.dirty)), ?_⟩
          exact (propagate_comp_untouched fuel kc did nc (some oid) (!o.dirty) x
            hreachkc).trans hQ.2

/-- The downward propagation a dynamic attach issues on the accessing
computation itself does not abort the computation's running task when the
task's captured `cause_at` already covers the propagated cause, provided the
propagation cannot cycle back to the computation. -/
theorem propagate_self_no_abort (fuel : Nat) (k : Kernel) (cid : String) (nc : Nat)
    (sv : Option String) (c : RComputation) (t : RunningTask)
    (hc : getComputation k cid = some c) (ht : c.runningTask = some t)
    (hle : nc ≤ t.cause_at)
    (hreach : ∀ oid, oid ∈ compOutputsD k cid → ∀ did, did ∈ varDependentsD k oid →
      cid ∉ reachComps k fuel did) :
    ∃ c', getComputation (propagateCauseAtDownward (Nat.succ fuel) k cid nc sv false) cid
        = some c'
      ∧ c'.runningTask = some t ∧ c'.abortingTasks = c.abortingTasks
      ∧ c'.outputs = c.outputs := by
  show ∃ c', getComputation (propagateCauseAtDownward (Nat.succ fuel) k cid nc sv false) cid
    = some c' ∧ _
  unfold propagateCauseAtDownward
  dsimp only
  rw [tryInc_false k cid sv, hc]
  dsimp only
  split
  · exact ⟨c, hc, ht, rfl, rfl⟩
  have hc2 := setCauseAt_noAbort hc ht hle
  have ht2 : ({ c with cause_at := nc } : RComputation).runningTask = some t := ht
  have hc3 := setDirty_true_keep hc2 ht2
  rw [hc3]
  dsimp only
  have hpk3 : PresRel k (setDirty (setCauseAt k cid nc) cid true) :=
    presRel_trans (presRel_setCauseAt k cid nc) (presRel_setDirty _ cid true)
  have hinv := foldlInv (fun s => PresRel (setDirty (setCauseAt k cid nc) cid true) s
      ∧ getComputation s cid = getComputation (setDirty (setCauseAt k cid nc) cid true) cid)
    (fun ka oid =>
      match getVariableAny ka oid with
      | none => ka
      | some o =>
        let compCause := ((getComputation ka cid).map (fun cc => cc.cause_at)).getD nc
        let kb := setVariableAny ka oid { o with cause_at := compCause, dirty := true }
        o.dependents.foldl (fun kc did =>
          propagateCauseAtDownward fuel kc did nc (some oid) (!o.dirty)) kb)
    ({ c with cause_at := nc, dirty := true } : RComputation).outputs
    ?_ _ ⟨presRel_refl _, rfl⟩
  case _ =>
    obtain ⟨_, h2⟩ := hinv
    rw [hc3] at h2
    exact ⟨_, h2, ht, rfl, rfl⟩
  intro ka oid hoid hP
  dsimp only
  cases ho : getVariableAny ka oid with
  | none => exact hP
  | some o =>
    dsimp only
    have hkacid : getComputation ka cid
        = some ({ c with cause_at := nc, dirty := true } : RComputation) := by
      rw [hP.2, hc3]
    have hout : ∃ cw : String × RComputation,
        getComputation ka cw.1 = some cw.2 ∧ oid ∈ cw.2.outputs :=
      ⟨(cid, { c with cause_at := nc, dirty := true }), hkacid, hoid⟩
    have hka : PresRel k ka := presRel_trans hpk3 hP.1
    have hdeps : o.dependents = varDependentsD k oid := by
      rw [← varDependentsD_eq hka.2.2.2.1 oid]
      unfold varDependentsD
      rw [ho]
    have hb2 : PresRel ka (setVariableAny ka oid
        { o with cause_at := ((getComputation ka cid).map
            (fun cc => cc.cause_at)).getD nc, dirty := true }) :=
      presRel_setVarShape ho rfl hout
    have hbx : getComputation (setVariableAny ka oid
        { o with cause_at := ((getComputation ka cid).map
            (fun cc => cc.cause_at)).getD nc, dirty := true }) cid
        = getComputation (setDirty (setCauseAt k cid nc) cid true) cid := by
      rw [getComputation, (setVariableAny_fields ka oid _).1, ← getComputation]
      exact hP.2
    refine foldlInv (fun s => PresRel (setDirty (setCauseAt k cid nc) cid true) s
        ∧ getComputation s cid = getComputation (setDirty (setCauseAt k cid nc) cid true) cid)
      _ o.dependents ?_ _ ⟨presRel_trans hP.1 hb2, hbx⟩
    intro kc did hdid hQ
    have hkc : PresRel k kc := presRel_trans hpk3 hQ.1
    have hreachkc : cid ∉ reachComps kc fuel did := by
      rw [reach_stable hkc.2.2.1 hkc.2.2.2.1 fuel did]
      refine hreach oid ?_ did (by rw [← hdeps]; exact hdid)
      unfold compOutputsD
      rw [hc]
      exact hoid
    refine ⟨presRel_trans hQ.1 (propagate_pres fuel kc did nc (some oid) (!o.dirty)), ?_⟩
    exact (propagate_comp_untouched fuel kc did nc (some oid) (!o.dirty) cid
      hreachkc).trans hQ.2

theorem compScalar_outputsEq {c c' : RComputation} (h : compScalar c' = compScalar c) :
    c'.outputs = c.outputs := by
  simp [compScalar] at h
  exact h.2.2.2.1

theorem trackPreBump_facts {k : Kernel} {cid vid : String} {comp : RComputation}
    {t : RunningTask} {v : Variable}
    (hc : getComputation k cid = some comp) (hv : getVariableAny k vid = some v)
    (ht : comp.runningTask = some t) :
    ∃ c1, getComputation (trackPreBump k cid vid) cid = some c1
      ∧ compScalar c1 = compScalar comp
      ∧ c1.runningTask = some (if v.cause_at > comp.cause_at
          then { t with cause_at := v.cause_at } else t)
      ∧ c1.abortingTasks = comp.abortingTasks
      ∧ (∀ x, x ≠ cid → getComputation (trackPreBump k cid vid) x = getComputation k x)
      ∧ (∀ y, getVariableAny (trackPreBump k cid vid) y = getVariableAny k y) := by
  unfold trackPreBump
  rw [hc, hv]
  dsimp only
  rw [ht]
  dsimp only
  split
  next hgt =>
    refine ⟨_, getComputation_set_self _ hc, rfl, rfl, rfl, ?_, ?_⟩
    · intro x hx
      rw [getComputation_setComputation, if_neg (fun he => hx he.symm)]
    · intro y
      rfl
  next hgt =>
    exact ⟨comp, hc, rfl, ht, rfl, fun x hx => rfl, fun y => rfl⟩

theorem trackAttachInput_facts {k : Kernel} {cid : String} {c1 : RComputation}
    (vid : String) (hc : getComputation k cid = some c1) :
    getComputation (trackAttachInput k cid vid) cid
        = some { c1 with runtimeInputs := c1.runtimeInputs ++ [vid] }
      ∧ (∀ x, x ≠ cid → getComputation (trackAttachInput k cid vid) x = getComputation k x)
      ∧ (∀ y, getVariableAny (trackAttachInput k cid vid) y = getVariableAny k y) := by
  unfold trackAttachInput
  rw [hc]
  dsimp only
  refine ⟨getComputation_set_self _ hc, ?_, fun y => rfl⟩
  intro x hx
  rw [getComputation_setComputation, if_neg (fun he => hx he.symm)]

theorem trackAttachDependent_facts {k : Kernel} {vid : String} {v2 : Variable}
    (cid : String) (hv : getVariableAny k vid = some v2) :
    ∃ v3, getVariableAny (trackAttachDependent k cid vid) vid = some v3
      ∧ v3.cause_at = v2.cause_at ∧ v3.dirty = v2.dirty ∧ v3.producer = v2.producer
      ∧ (∀ x, getComputation (trackAttachDependent k cid vid) x = getComputation k x)
      ∧ (∀ y, y ≠ vid → getVariableAny (trackAttachDependent k cid vid) y
          = getVariableAny k y) := by
  unfold trackAttachDependent
  rw [hv]
  dsimp only
  split
  · exact ⟨v2, hv, rfl, rfl, rfl, fun x => rfl, fun y hy => rfl⟩
  · refine ⟨_, getVariableAny_set_self _ (by rw [hv]; rfl), rfl, rfl, rfl, ?_, ?_⟩
    · intro x
      rw [getComputation, (setVariableAny_fields k vid _).1, ← getComputation]
    · intro y hy
      exact getVariableAny_set_other _ hy

theorem trackObserve_facts {k : Kernel} {cid vid : String} {c3 : RComputation} {v3 : Variable}
    (fuel : Nat) (hc : getComputation k cid = some c3) (hv : getVariableAny k vid = some v3)
    (hprod : v3.producer = none) :
    ∃ v4, getVariableAny (trackObserve fuel k cid vid) vid = some v4
      ∧ v4.cause_at = v3.cause_at ∧ v4.dirty = v3.dirty
      ∧ (∀ x, getComputation (trackObserve fuel k cid vid) x = getComputation k x)
      ∧ (∀ y, y ≠ vid → getVariableAny (trackObserve fuel k cid vid) y
          = getVariableAny k y) := by
  unfold trackObserve
  rw [hc]
  dsimp only
  split
  · cases fuel with
    | zero => exact ⟨v3, hv, rfl, rfl, fun x => rfl, fun y hy => rfl⟩
    | succ f =>
      show ∃ v4, getVariableAny
        (propagateObserveCountUpward (Nat.succ f) k vid c3.observeCount) vid = some v4 ∧ _
      unfold propagateObserveCountUpward
      dsimp only
      split
      · exact ⟨v3, hv, rfl, rfl, fun x => rfl, fun y hy => rfl⟩
      · rw [hv]
        dsimp only
        rw [hprod]
        dsimp only
        refine ⟨_, getVariableAny_set_self _ (by rw [hv]; rfl), rfl, rfl, ?_, ?_⟩
        · intro x
          rw [getComputation, (setVariableAny_fields k vid _).1, ← getComputation]
        · intro y hy
          exact getVariableAny_set_other _ hy
  · exact ⟨v3, hv, rfl, rfl, fun x => rfl, fun y hy => rfl⟩

theorem trackCausePropagate_noAbort {k : Kernel} {cid vid : String} {c4 : RComputation}
    {v4 : Variable} {t1 : RunningTask} (fuel0 : Nat)
    (hv : getVariableAny k vid = some v4) (hc : getComputation k cid = some c4)
    (ht : c4.runningTask = some t1)
    (hle : v4.cause_at > c4.cause_at → v4.cause_at ≤ t1.cause_at)
    (hreach : ∀ oid, oid ∈ compOutputsD k cid → ∀ did, did ∈ varDependentsD k oid →
      cid ∉ reachComps k fuel0 did)
    (hnotout : ∀ cid0 c0, getComputation k cid0 = some c0 → vid ∉ c0.outputs) :
    ∃ c5, getComputation (trackCausePropagate (Nat.succ fuel0) k cid vid) cid = some c5
      ∧ c5.runningTask = some t1 ∧ c5.abortingTasks = c4.abortingTasks
      ∧ getVariableAny (trackCausePropagate (Nat.succ fuel0) k cid vid) vid = some v4 := by
  unfold trackCausePropagate
  rw [hv, hc]
  dsimp only
  split
  next hgt =>
    obtain ⟨c5, h1, h2, h3, _⟩ := propagate_self_no_abort fuel0 k cid v4.cause_at (some vid)
      c4 t1 hc ht (hle hgt) hreach
    refine ⟨c5, h1, h2, h3, ?_⟩
    rw [(propagate_pres (Nat.succ fuel0) k cid v4.cause_at (some vid) false).2.2.2.2
      vid hnotout]
    exact hv
  next => exact ⟨c4, hc, ht, rfl, hv⟩

theorem trackDirtyInput_clean {k : Kernel} {vid : String} {v5 : Variable}
    (cid : String) (hv : getVariableAny k vid = some v5) (hd : v5.dirty = false) :
    trackDirtyInput k cid vid = k := by
  unfold trackDirtyInput
  rw [hv]
  cases hc : getComputation k cid with
  | none => rfl
  | some c5 =>
    dsimp only
    rw [if_neg (by rw [hd]; simp)]

theorem reach_congr {k k' : Kernel}
    (hco : ∀ x, compOutputsD k' x = compOutputsD k x)
    (hvd : ∀ y, (∃ x, y ∈ compOutputsD k x) → varDependentsD k' y = varDependentsD k y) :
    ∀ (n : Nat) (d : String), reachComps k' n d = reachComps k n d
  | 0, _ => rfl
  | Nat.succ n, d => by
    show reachComps k' (Nat.succ n) d = reachComps k (Nat.succ n) d
    unfold reachComps
    rw [hco d]
    congr 1
    refine foldl_append_congr _ _ (compOutputsD k d) [] ?_
    intro oid hoid
    rw [hvd oid ⟨d, hoid⟩]
    refine foldl_append_congr _ _ (varDependentsD k oid) [] ?_
    intro did _
    exact reach_congr hco hvd n did

/-- C5: while a computation has a running task, raising its `cause_at` aborts
the task exactly when the task's captured `cause_at` is smaller than the new
value; and because the dynamic-dependency attach pre-bumps the captured
`cause_at` to the accessed variable's `cause_at` before issuing the downward
propagation, a running task survives the propagation triggered by its own
dynamic access (stated for access to a clean source variable, with the
propagation unable to cycle back to the accessing computation). -/
theorem causeAt_abort_iff_and_dynamic_prebump :
    (∀ (k : Kernel) (cid : String) (nc : Nat) (c : RComputation) (t : RunningTask),
      getComputation k cid = some c → c.runningTask = some t → c.cause_at < nc →
      ∃ c', getComputation (setCauseAt k cid nc) cid = some c'
        ∧ (if t.cause_at < nc
           then c'.runningTask = none ∧ { t with aborted := true } ∈ c'.abortingTasks
           else c'.runningTask = some t ∧ c'.abortingTasks = c.abortingTasks))
    ∧ (∀ (fuel0 : Nat) (k : Kernel) (cid vid : String) (comp : RComputation)
        (t : RunningTask) (v : Variable),
      getComputation k cid = some comp → comp.runningTask = some t →
      getVariableAny k vid = some v → v.producer = none → v.dirty = false →
      comp.runtimeInputs.contains vid = false →
      comp.staticInputs.contains vid = true →
      (∀ cid0 c0, getComputation k cid0 = some c0 → vid ∉ c0.outputs) →
      (∀ oid, oid ∈ comp.outputs → ∀ did, did ∈ varDependentsD k oid →
        cid ∉ reachComps k fuel0 did) →
      ∃ k6 c6, trackVariableAccess (Nat.succ fuel0) k cid vid false = Except.ok k6
        ∧ getComputation k6 cid = some c6
        ∧ c6.runningTask = some (if v.cause_at > comp.cause_at
            then { t with cause_at := v.cause_at } else t)
        ∧ c6.abortingTasks = comp.abortingTasks) := by
  constructor
  · intro k cid nc c t hc ht hraise
    exact setCauseAt_abort_iff hc ht hraise
  · intro fuel0 k cid vid comp t v hc ht hv hprod hclean hrt hst hnotout hreach
    unfold trackVariableAccess
    rw [hc, hv]
    dsimp only
    rw [if_neg (by rw [hrt]; simp), if_neg (by simp), if_neg (by rw [hst]; simp)]
    obtain ⟨c1, hgc1, hsc1, hrt1, hab1, hco1, hvo1⟩ := trackPreBump_facts hc hv ht
    obtain ⟨hgc2, hco2, hvo2⟩ := trackAttachInput_facts vid hgc1
    have hv2 : getVariableAny (trackAttachInput (trackPreBump k cid vid) cid vid) vid
        = some v := (hvo2 vid).trans ((hvo1 vid).trans hv)
    obtain ⟨v3, hv3, hca3, hd3, hp3, hcall3, hvo3⟩ := trackAttachDependent_facts cid hv2
    have hgc3 : getComputation (trackAttachDependent
        (trackAttachInput (trackPreBump k cid vid) cid vid) cid vid) cid
        = some { c1 with runtimeInputs := c1.runtimeInputs ++ [vid] } :=
      (hcall3 cid).trans hgc2
    obtain ⟨v4, hv4, hca4, hd4, hcall4, hvo4⟩ := trackObserve_facts (Nat.succ fuel0) hgc3 hv3
      (hp3.trans hprod)
    have hgc4 : getComputation (trackObserve (Nat.succ fuel0) (trackAttachDependent
        (trackAttachInput (trackPreBump k cid vid) cid vid) cid vid) cid vid) cid
        = some { c1 with runtimeInputs := c1.runtimeInputs ++ [vid] } :=
      (hcall4 cid).trans hgc3
    have hcomps4 : ∀ x, x ≠ cid → getComputation (trackObserve (Nat.succ fuel0)
        (trackAttachDependent (trackAttachInput (trackPreBump k cid vid) cid vid) cid vid)
        cid vid) x = getComputation k x := by
      intro x hx
      rw [hcall4 x, hcall3 x, hco2 x hx, hco1 x hx]
    have hvars4 : ∀ y, y ≠ vid → getVariableAny (trackObserve (Nat.succ fuel0)
        (trackAttachDependent (trackAttachInput (trackPreBump k cid vid) cid vid) cid vid)
        cid vid) y = getVariableAny k y := by
      intro y hy
      rw [hvo4 y hy, hvo3 y hy, hvo2 y, hvo1 y]
    have houts1 : ({ c1 with runtimeInputs := c1.runtimeInputs ++ [vid] }
        : RComputation).outputs = comp.outputs := by
      show c1.outputs = comp.outputs
      exact compScalar_outputsEq hsc1
    have hvidout : vid ∉ comp.outputs := hnotout cid comp hc
    have hnotout4 : ∀ cid0 c0, getComputation (trackObserve (Nat.succ fuel0)
        (trackAttachDependent (trackAttachInput (trackPreBump k cid vid) cid vid) cid vid)
        cid vid) cid0 = some c0 → vid ∉ c0.outputs := by
      intro cid0 c0 hg
      by_cases hx : cid0 = cid
      · subst hx
        rw [hgc4] at hg
        cases hg
        rw [houts1]
        exact hvidout
      · rw [hcomps4 cid0 hx] at hg
        exact hnotout cid0 c0 hg
    have hco4 : ∀ x, compOutputsD (trackObserve (Nat.succ fuel0)
        (trackAttachDependent (trackAttachInput (trackPreBump k cid vid) cid vid) cid vid)
        cid vid) x = compOutputsD k x := by
      intro x
      by_cases hx : x = cid
      · subst hx
        unfold compOutputsD
        rw [hgc4, hc]
        exact houts1
      · unfold compOutputsD
        rw [hcomps4 x hx]
    have hvd4 : ∀ y, (∃ x, y ∈ compOutputsD k x) → varDependentsD (trackObserve
        (Nat.succ fuel0) (trackAttachDependent (trackAttachInput (trackPreBump k cid vid)
        cid vid) cid vid) cid vid) y = varDependentsD k y := by
      intro y hy
      obtain ⟨x, hyx⟩ := hy
      have hyvid : y ≠ vid := by
        intro he
        subst he
        unfold compOutputsD at hyx
        cases hgx : getComputation k x with
        | none => rw [hgx] at hyx; cases hyx
        | some cx =>
          rw [hgx] at hyx
          exact hnotout x cx hgx hyx
      unfold varDependentsD
      rw [hvars4 y hyvid]
    have hreach4 : ∀ oid, oid ∈ compOutputsD (trackObserve (Nat.succ fuel0)
        (trackAttachDependent (trackAttachInput (trackPreBump k cid vid) cid vid) cid vid)
        cid vid) cid → ∀ did, did ∈ varDependentsD (trackObserve (Nat.succ fuel0)
        (trackAttachDependent (trackAttachInput (trackPreBump k cid vid) cid vid) cid vid)
        cid vid) oid → cid ∉ reachComps (trackObserve (Nat.succ fuel0)
        (trackAttachDependent (trackAttachInput (trackPreBump k cid vid) cid vid) cid vid)
        cid vid) fuel0 did := by
      intro oid hoid did hdid
      rw [hco4 cid] at hoid
      have hoidouts : oid ∈ comp.outputs := by
        unfold compOutputsD at hoid
        rw [hc] at hoid
        exact hoid
      rw [hvd4 oid ⟨cid, by unfold compOutputsD; rw [hc]; exact hoidouts⟩] at hdid
      rw [reach_congr hco4 hvd4 fuel0 did]
      exact hreach oid hoidouts did hdid
    have hrt4 : ({ c1 with runtimeInputs := c1.runtimeInputs ++ [vid] }
        : RComputation).runningTask = some (if v.cause_at > comp.cause_at
          then { t with cause_at := v.cause_at } else t) := by
      show c1.runningTask = _
      exact hrt1
    have hle4 : v4.cause_at > ({ c1 with runtimeInputs := c1.runtimeInputs ++ [vid] }
        : RComputation).cause_at → v4.cause_at ≤ (if v.cause_at > comp.cause_at
          then { t with cause_at := v.cause_at } else t).cause_at := by
      intro hgt
      have hc1c : ({ c1 with runtimeInputs := c1.runtimeInputs ++ [vid] }
          : RComputation).cause_at = comp.cause_at := by
        show c1.cause_at = comp.cause_at
        exact compScalar_causeAtEq hsc1
      rw [hc1c] at hgt
      rw [hca4, hca3] at hgt ⊢
      rw [if_pos hgt]
    obtain ⟨c5, hgc5, hrt5, hab5, hv5⟩ := trackCausePropagate_noAbort fuel0 hv4 hgc4 hrt4
      hle4 hreach4 hnotout4
    rw [trackDirtyInput_clean cid hv5 (by rw [hd4, hd3]; exact hclean)]
    refine ⟨_, c5, rfl, hgc5, hrt5, ?_⟩
    have hab4 : ({ c1 with runtimeInputs := c1.runtimeInputs ++ [vid] }
        : RComputation).abortingTasks = comp.abortingTasks := by
      show c1.abortingTasks = comp.abortingTasks
      exact hab1
    exact hab5.trans hab4

/-- C5 witness: in the dynamic-access scenario kernel, the running task of
`H` (captured `cause_at` 4) survives its own dynamic attach of source `v`
(`cause_at` 10) with its captured `cause_at` pre-bumped to 10. -/
theorem causeAt_abort_iff_and_dynamic_prebump_witness :
    ∃ k6 c6, trackVariableAccess (Nat.succ 9) kDynamic "H" "v" false = Except.ok k6
      ∧ getComputation k6 "H" = some c6
      ∧ c6.runningTask = some { taskId := 1, cause_at := 10, aborted := false }
      ∧ c6.abortingTasks = [] := by
  obtain ⟨k6, c6, h1, h2, h3, h4⟩ :=
    causeAt_abort_iff_and_dynamic_prebump.2 9 kDynamic "H" "v" _ _ _
      rfl rfl rfl rfl rfl (by decide) (by decide)
      (by intro cid0 c0 hg
          have hm := lookupA_mem hg
          simp [kDynamic] at hm
          rw [hm.2]
          decide)
      (by decide)
  refine ⟨k6, c6, h1, h2, ?_, h4⟩
  rw [h3]
  rfl

theorem foldl_append_shift {α β : Type} (f : β → List α) :
    ∀ (l : List β) (init : List α),
      l.foldl (fun acc b => acc ++ f b) init = init ++ l.foldl (fun acc b => acc ++ f b) []
  | [], init => by simp
  | b :: l, init => by
    simp only [List.foldl_cons]
    rw [foldl_append_shift f l (init ++ f b), foldl_append_shift f l ([] ++ f b)]
    simp [List.append_assoc]

theorem varShapeP_result {v w : Variable} (h : varShapeP v = varShapeP w) :
    v.result = w.result := by
  simp [varShapeP] at h
  exact h.2.1

theorem varShapeP_valueAt {v w : Variable} (h : varShapeP v = varShapeP w) :
    v.value_at = w.value_at := by
  simp [varShapeP] at h
  exact h.2.2.1

theorem varShapeP_observers {v w : Variable} (h : varShapeP v = varShapeP w) :
    v.observers = w.observers := by
  simp [varShapeP] at h
  exact h.2.2.2.2.2.1

theorem c1Fold (k : Kernel) (cid : String) (outs : List (String × Val)) (nv : Nat) :
    ∀ (l : List String) (k1 : Kernel),
      k1.logicalClock = k.logicalClock →
      (∀ y, (getVariableAny k1 y).map varShapeP = (getVariableAny k y).map varShapeP) →
      (∀ x, dicRel (getComputation k x) (getComputation k1 x)) →
      (∀ oid, oid ∈ l → ∀ ov, getVariableAny k oid = some ov →
        deepEqual (oldSuccessValue ov.result) (recordGet outs oid) = true) →
      (l.foldl (fun k1 oid =>
        match getVariableAny k1 oid with
        | none => k1
        | some ov =>
          cleanVariable (setVariableAny k1 oid
            { (if (!(deepEqual (oldSuccessValue ov.result) (recordGet outs oid))) = true
               then { ov with result := RResult.success (recordGet outs oid), value_at := nv }
               else ov) with
              cause_at := ((getComputation k1 cid).map (fun cc => cc.cause_at)).getD ov.cause_at,
              dirty := false }) oid) k1).logicalClock = k.logicalClock
      ∧ (∀ y, (getVariableAny (l.foldl (fun k1 oid =>
          match getVariableAny k1 oid with
          | none => k1
          | some ov =>
            cleanVariable (setVariableAny k1 oid
              { (if (!(deepEqual (oldSuccessValue ov.result) (recordGet outs oid))) = true
                 then { ov with result := RResult.success (recordGet outs oid), value_at := nv }
                 else ov) with
                cause_at := ((getComputation k1 cid).map (fun cc => cc.cause_at)).getD ov.cause_at,
                dirty := false }) oid) k1) y).map varShapeP
          = (getVariableAny k y).map varShapeP)
      ∧ (∀ x, dicRel (getComputation k x) (getComputation (l.foldl (fun k1 oid =>
          match getVariableAny k1 oid with
          | none => k1
          | some ov =>
            cleanVariable (setVariableAny k1 oid
              { (if (!(deepEqual (oldSuccessValue ov.result) (recordGet outs oid))) = true
                 then { ov with result := RResult.success (recordGet outs oid), value_at := nv }
                 else ov) with
                cause_at := ((getComputation k1 cid).map (fun cc => cc.cause_at)).getD ov.cause_at,
                dirty := false }) oid) k1) x))
      ∧ (l.foldl (fun k1 oid =>
          match getVariableAny k1 oid with
          | none => k1
          | some ov =>
            cleanVariable (setVariableAny k1 oid
              { (if (!(deepEqual (oldSuccessValue ov.result) (recordGet outs oid))) = true
                 then { ov with result := RResult.success (recordGet outs oid), value_at := nv }
                 else ov) with
                cause_at := ((getComputation k1 cid).map (fun cc => cc.cause_at)).getD ov.cause_at,
                dirty := false }) oid) k1).notifications
          = k1.notifications ++ l.foldl (fun acc oid => acc ++ observerNotes k oid) []
  | [], k1, h1, h2, h3, _ => ⟨h1, h2, h3, by simp⟩
  | oid :: l, k1, h1, h2, h3, hl => by
    simp only [List.foldl_cons]
    cases ho : getVariableAny k1 oid with
    | none =>
      have hko : getVariableAny k oid = none := by
        have := h2 oid
        rw [ho] at this
        cases hk : getVariableAny k oid with
        | none => rfl
        | some w => rw [hk] at this; cases this
      have hnotes : observerNotes k oid = [] := by
        unfold observerNotes
        rw [hko]
      obtain ⟨i1, i2, i3, i4⟩ := c1Fold k cid outs nv l k1 h1 h2 h3
        (fun x hx => hl x (List.mem_cons_of_mem oid hx))
      refine ⟨i1, i2, i3, ?_⟩
      rw [i4, foldl_append_shift (observerNotes k) l ([] ++ observerNotes k oid), hnotes]
      simp
    | some ov =>
      dsimp only
      have hovk : ∃ kov, getVariableAny k oid = some kov ∧ varShapeP ov = varShapeP kov := by
        have := h2 oid
        rw [ho] at this
        cases hk : getVariableAny k oid with
        | none => rw [hk] at this; cases this
        | some w =>
          rw [hk] at this
          simp at this
          exact ⟨w, rfl, this⟩
      obtain ⟨kov, hkov, hshape⟩ := hovk
      have hres : ov.result = kov.result := varShapeP_result hshape
      have hvcond : (!(deepEqual (oldSuccessValue ov.result) (recordGet outs oid))) = false := by
        rw [hres, hl oid (List.mem_cons_self oid l) kov hkov]
        rfl
      rw [hvcond, if_neg (by simp)]
      set compCauseV : Nat :=
        ((getComputation k1 cid).map (fun cc => cc.cause_at)).getD ov.cause_at with hccv
      set o1 : Variable := { ov with cause_at := compCauseV, dirty := false } with ho1
      have hset := setVariableAny_fields k1 oid o1
      obtain ⟨⟨wv, wp, wc, wdic⟩, wnotif⟩ := cleanVariable_spec (setVariableAny k1 oid o1) oid
      have hgAll : ∀ y, getVariableAny (cleanVariable (setVariableAny k1 oid o1) oid) y
          = getVariableAny (setVariableAny k1 oid o1) y := getVariableAny_congr wv wp
      have hself : getVariableAny (setVariableAny k1 oid o1) oid = some o1 :=
        getVariableAny_set_self o1 (by rw [ho]; rfl)
      have hclock2 : (cleanVariable (setVariableAny k1 oid o1) oid).logicalClock
          = k.logicalClock := by rw [wc, hset.2.1, h1]
      have hshape2 : ∀ y, (getVariableAny (cleanVariable (setVariableAny k1 oid o1) oid) y).map
          varShapeP = (getVariableAny k y).map varShapeP := by
        intro y
        rw [hgAll y]
        by_cases hy : y = oid
        · subst hy
          rw [hself, hkov]
          have : varShapeP o1 = varShapeP kov := by
            rw [← hshape, ho1]
            rfl
          simp [this]
        · rw [getVariableAny_set_other o1 hy]
          exact h2 y
      have hdic2 : ∀ x, dicRel (getComputation k x)
          (getComputation (cleanVariable (setVariableAny k1 oid o1) oid) x) := by
        intro x
        refine dicRel_trans (h3 x) ?_
        have hcomp : getComputation (setVariableAny k1 oid o1) x = getComputation k1 x := by
          rw [getComputation, hset.1, ← getComputation]
        rw [← hcomp]
        exact wdic x
      have hobs : o1.observers = kov.observers := by
        rw [ho1]
        show ov.observers = kov.observers
        exact varShapeP_observers hshape
      have hres1 : o1.result = kov.result := by
        rw [ho1]
        show ov.result = kov.result
        exact hres
      have hnotif2 : (cleanVariable (setVariableAny k1 oid o1) oid).notifications
          = k1.notifications ++ observerNotes k oid := by
        rw [wnotif, hself, hset.2.2.1]
        unfold observerNotes
        rw [hkov]
        dsimp only
        rw [hobs, hres1]
      obtain ⟨i1, i2, i3, i4⟩ := c1Fold k cid outs nv l
        (cleanVariable (setVariableAny k1 oid o1) oid) hclock2 hshape2 hdic2
        (fun x hx => hl x (List.mem_cons_of_mem oid hx))
      refine ⟨i1, i2, i3, ?_⟩
      rw [i4, hnotif2, foldl_append_shift (observerNotes k) l ([] ++ observerNotes k oid)]
      simp [List.append_assoc]

theorem anyFalseOf {f : String → Bool} :
    ∀ l : List String, (∀ x ∈ l, f x = false) → l.any f = false
  | [], _ => rfl
  | x :: l, h => by
    simp only [List.any_cons]
    rw [h x (List.mem_cons_self x l),
      anyFalseOf l (fun y hy => h y (List.mem_cons_of_mem x hy))]
    rfl

/-- C1 counterexample: committing values deep-equal to both previous outputs
of `E` still notifies the observer of `o1` — the observers ARE notified on a
value-unchanged commit, refuting the no-notification part of the claim. -/
theorem output_pruning_notifies_counterexample :
    ((getComputation kTwoOut "E").map (fun c => c.outputs) = some ["o1", "o2"])
    ∧ ((getVariableAny kTwoOut "o1").map
        (fun v => deepEqual (oldSuccessValue v.result)
          (recordGet [("o1", Val.vint 5), ("o2", Val.vint 7)] "o1")) = some true)
    ∧ ((getVariableAny kTwoOut "o2").map
        (fun v => deepEqual (oldSuccessValue v.result)
          (recordGet [("o1", Val.vint 5), ("o2", Val.vint 7)] "o2")) = some true)
    ∧ kTwoOut.notifications = []
    ∧ (updateOutputs kTwoOut "E" [("o1", Val.vint 5), ("o2", Val.vint 7)]).notifications
        = [("o1", RResult.success (Val.vint 5))] :=
  ⟨rfl, rfl, rfl, rfl, rfl⟩

/-- C1 (amended): on a commit whose values are deep-equal to every output's
previous value, the logical clock does not tick, every variable keeps its
result, `value_at`, observers and shape (only `dirty`/`cause_at` may move),
no computation's `dirtyInputCount` increases (it may only decrease via the
clean cascade) — but the outputs' observers are notified, once per observer
per output, with the unchanged result. -/
theorem output_pruning_amended (k : Kernel) (cid : String) (outs : List (String × Val))
    (c : RComputation) (hc : getComputation k cid = some c)
    (hall : ∀ oid ∈ c.outputs, ((getVariableAny k oid).map
      (fun ov => deepEqual (oldSuccessValue ov.result) (recordGet outs oid))).getD true
        = true) :
    (updateOutputs k cid outs).logicalClock = k.logicalClock
    ∧ (∀ y, (getVariableAny (updateOutputs k cid outs) y).map varShapeP
        = (getVariableAny k y).map varShapeP)
    ∧ (∀ x, dicRel (getComputation k x) (getComputation (updateOutputs k cid outs) x))
    ∧ (updateOutputs k cid outs).notifications
        = k.notifications ++ unchangedCommitNotes k c := by
  have hall' : ∀ oid, oid ∈ c.outputs → ∀ ov, getVariableAny k oid = some ov →
      deepEqual (oldSuccessValue ov.result) (recordGet outs oid) = true := by
    intro oid hoid ov hov
    have := hall oid hoid
    rw [hov] at this
    simpa using this
  have hany : (c.outputs.any (fun oid =>
      match getVariableAny k oid with
      | none => false
      | some ov => !(deepEqual (oldSuccessValue ov.result) (recordGet outs oid)))) = false := by
    refine anyFalseOf c.outputs ?_
    intro oid hoid
    cases hov : getVariableAny k oid with
    | none => rfl
    | some ov =>
      dsimp only
      rw [hall' oid hoid ov hov]
      rfl
  unfold updateOutputs
  rw [hc]
  dsimp only
  rw [hany, if_neg (show ¬(false = true) from by simp)]
  obtain ⟨i1, i2, i3, i4⟩ := c1Fold k cid outs (if false = true then k.logicalClock + 1 else 0)
    c.outputs k rfl (fun _ => rfl) (fun x => dicRel_refl _) hall'
  exact ⟨i1, i2, i3, i4⟩

/-- C1 amended witness: the unchanged commit of `E` leaves the clock at 9 and
only lowers (never raises) `F`'s dirty-input count. -/
theorem output_pruning_amended_witness :
    (updateOutputs kTwoOut "E" [("o1", Val.vint 5), ("o2", Val.vint 7)]).logicalClock
        = kTwoOut.logicalClock
    ∧ dicRel (getComputation kTwoOut "F")
        (getComputation (updateOutputs kTwoOut "E" [("o1", Val.vint 5), ("o2", Val.vint 7)])
          "F") := by
  obtain ⟨i1, _, i3, _⟩ := output_pruning_amended kTwoOut "E"
    [("o1", Val.vint 5), ("o2", Val.vint 7)] _ rfl (by decide)
  exact ⟨i1, i3 "F"⟩

/-! ## C9 — first-win output ownership, quarantine and promotion -/
theorem lookupA_append_one {α : Type} (x y : String) (v : α) :
    ∀ l : List (String × α),
      lookupA (l ++ [(x, v)]) y
        = match lookupA l y with
          | some w => some w
          | none => if x = y then some v else none
  | [] => by
    rw [List.nil_append, lookupA_nil]
    show lookupA [(x, v)] y = _
    rw [lookupA_cons, lookupA_nil]
  | (a, b) :: t => by
    rw [List.cons_append, lookupA_cons, lookupA_cons]
    by_cases h : a = y
    · rw [if_pos h, if_pos h]
    · rw [if_neg h, if_neg h]
      exact lookupA_append_one x y v t

theorem lookupA_isSome_find {α : Type} (l : List (String × α)) (x : String) :
    (lookupA l x).isSome = (l.find? (fun p => p.1 == x)).isSome := by
  unfold lookupA
  cases l.find? (fun p => p.1 == x) <;> rfl

theorem lookupA_putA {α : Type} (l : List (String × α)) (x y : String) (v : α) :
    lookupA (putA l x v) y = if x = y then some v else lookupA l y := by
  unfold putA
  split
  next h =>
    rw [lookupA_updateA]
    by_cases hxy : x = y
    · rw [if_pos hxy, if_pos hxy]
      subst hxy
      have hs : (lookupA l x).isSome := by rw [lookupA_isSome_find]; exact h
      cases ho : lookupA l x with
      | none => rw [ho] at hs; cases hs
      | some w => rfl
    · rw [if_neg hxy, if_neg hxy]
  next h =>
    rw [lookupA_append_one]
    by_cases hxy : x = y
    · subst hxy
      have hn : lookupA l x = none := by
        cases hf : l.find? (fun p => p.1 == x) with
        | none => unfold lookupA; rw [hf]; rfl
        | some w => rw [hf] at h; exact absurd rfl h
      rw [hn]
    · cases ho : lookupA l y with
      | some w => rw [if_neg hxy, if_neg hxy]
      | none => rw [if_neg hxy]

theorem setVariableAny_fields2 (k : Kernel) (vid : String) (v : Variable) :
    (setVariableAny k vid v).problem_computations = k.problem_computations
    ∧ (setVariableAny k vid v).outputWaiters = k.outputWaiters := by
  unfold setVariableAny
  refine ⟨?_, ?_⟩ <;> (repeat' split) <;> rfl

theorem setVariableAny_lookup_other (k : Kernel) (vid : String) (v : Variable) (y : String)
    (hy : y ≠ vid) :
    lookupA (setVariableAny k vid v).vars y = lookupA k.vars y
    ∧ lookupA (setVariableAny k vid v).problem_variables y
        = lookupA k.problem_variables y := by
  unfold setVariableAny
  by_cases h1 : (lookupA k.vars vid).isSome = true
  · rw [if_pos h1]
    refine ⟨?_, rfl⟩
    show lookupA (updateA k.vars vid v) y = lookupA k.vars y
    rw [lookupA_updateA, if_neg (fun he => hy he.symm)]
  · rw [if_neg h1]
    by_cases h2 : (lookupA k.problem_variables vid).isSome = true
    · rw [if_pos h2]
      refine ⟨rfl, ?_⟩
      show lookupA (updateA k.problem_variables vid v) y = lookupA k.problem_variables y
      rw [lookupA_updateA, if_neg (fun he => hy he.symm)]
    · rw [if_neg h2]
      exact ⟨rfl, rfl⟩

theorem c9InputsFold (defnId out : String) :
    ∀ (l : List String) (kk : Kernel), out ∉ l →
      lookupA (l.foldl (fun kk2 inputId =>
          match getVariableAny kk2 inputId with
          | some v =>
            setVariableAny kk2 inputId
              { v with dependents :=
                  if v.dependents.contains defnId then v.dependents
                  else v.dependents ++ [defnId] }
          | none => kk2) kk).vars out = lookupA kk.vars out
      ∧ lookupA (l.foldl (fun kk2 inputId =>
          match getVariableAny kk2 inputId with
          | some v =>
            setVariableAny kk2 inputId
              { v with dependents :=
                  if v.dependents.contains defnId then v.dependents
                  else v.dependents ++ [defnId] }
          | none => kk2) kk).problem_variables out = lookupA kk.problem_variables out
      ∧ (l.foldl (fun kk2 inputId =>
          match getVariableAny kk2 inputId with
          | some v =>
            setVariableAny kk2 inputId
              { v with dependents :=
                  if v.dependents.contains defnId then v.dependents
                  else v.dependents ++ [defnId] }
          | none => kk2) kk).problem_computations = kk.problem_computations
      ∧ (l.foldl (fun kk2 inputId =>
          match getVariableAny kk2 inputId with
          | some v =>
            setVariableAny kk2 inputId
              { v with dependents :=
                  if v.dependents.contains defnId then v.dependents
                  else v.dependents ++ [defnId] }
          | none => kk2) kk).outputWaiters = kk.outputWaiters
      ∧ (l.foldl (fun kk2 inputId =>
          match getVariableAny kk2 inputId with
          | some v =>
            setVariableAny kk2 inputId
              { v with dependents :=
                  if v.dependents.contains defnId then v.dependents
                  else v.dependents ++ [defnId] }
          | none => kk2) kk).computations = kk.computations
  | [], _, _ => ⟨rfl, rfl, rfl, rfl, rfl⟩
  | i :: l, kk, hout => by
    simp only [List.foldl_cons]
    have hio : out ≠ i := fun he => hout (he ▸ List.mem_cons_self i l)
    have hrest : out ∉ l := fun hh => hout (List.mem_cons_of_mem i hh)
    cases hv : getVariableAny kk i with
    | none =>
      dsimp only
      exact c9InputsFold defnId out l kk hrest
    | some v =>
      dsimp only
      obtain ⟨e1, e2, e3, e4, e5⟩ := c9InputsFold defnId out l (setVariableAny kk i
        { v with dependents :=
            if v.dependents.contains defnId then v.dependents
            else v.dependents ++ [defnId] }) hrest
      obtain ⟨f1, f2⟩ := setVariableAny_lookup_other kk i
        { v with dependents :=
            if v.dependents.contains defnId then v.dependents
            else v.dependents ++ [defnId] } out hio
      obtain ⟨g1, g2⟩ := setVariableAny_fields2 kk i
        { v with dependents :=
            if v.dependents.contains defnId then v.dependents
            else v.dependents ++ [defnId] }
      exact ⟨e1.trans f1, e2.trans f2, e3.trans g1, e4.trans g2,
        e5.trans (setVariableAny_fields kk i _).1⟩

theorem memWaiterList (did : String) (cur : List String) :
    did ∈ (if cur.contains did then cur else cur ++ [did]) := by
  by_cases hc : cur.contains did = true
  · rw [if_pos hc]
    simpa using hc
  · rw [if_neg hc]
    exact List.mem_append_right cur (List.mem_singleton.mpr rfl)

theorem memWaiterUpdate (did : String) {cur cur2 : List String} (h : did ∈ cur)
    (h2 : cur2 = cur ∨ cur2 = cur ++ [did]) : did ∈ cur2 := by
  cases h2 with
  | inl he => rw [he]; exact h
  | inr he => rw [he]; exact List.mem_append_left _ h

theorem c9WaitersFold (did out : String) :
    ∀ (l : List String) (kk : Kernel),
      ((lookupA kk.vars out).isSome || (lookupA kk.problem_variables out).isSome) = true →
      (out ∈ l ∨ did ∈ (lookupA kk.outputWaiters out).getD []) →
      (l.foldl (fun kk2 outputId =>
          if (lookupA kk2.vars outputId).isSome
              || (lookupA kk2.problem_variables outputId).isSome then
            { kk2 with outputWaiters :=
                (putA kk2.outputWaiters outputId
                  (if ((lookupA kk2.outputWaiters outputId).getD []).contains did
                   then (lookupA kk2.outputWaiters outputId).getD []
                   else (lookupA kk2.outputWaiters outputId).getD [] ++ [did])) }
          else kk2) kk).vars = kk.vars
      ∧ (l.foldl (fun kk2 outputId =>
          if (lookupA kk2.vars outputId).isSome
              || (lookupA kk2.problem_variables outputId).isSome then
            { kk2 with outputWaiters :=
                (putA kk2.outputWaiters outputId
                  (if ((lookupA kk2.outputWaiters outputId).getD []).contains did
                   then (lookupA kk2.outputWaiters outputId).getD []
                   else (lookupA kk2.outputWaiters outputId).getD [] ++ [did])) }
          else kk2) kk).problem_variables = kk.problem_variables
      ∧ (l.foldl (fun kk2 outputId =>
          if (lookupA kk2.vars outputId).isSome
              || (lookupA kk2.problem_variables outputId).isSome then
            { kk2 with outputWaiters :=
                (putA kk2.outputWaiters outputId
                  (if ((lookupA kk2.outputWaiters outputId).getD []).contains did
                   then (lookupA kk2.outputWaiters outputId).getD []
                   else (lookupA kk2.outputWaiters outputId).getD [] ++ [did])) }
          else kk2) kk).problem_computations = kk.problem_computations
      ∧ (l.foldl (fun kk2 outputId =>
          if (lookupA kk2.vars outputId).isSome
              || (lookupA kk2.problem_variables outputId).isSome then
            { kk2 with outputWaiters :=
                (putA kk2.outputWaiters outputId
                  (if ((lookupA kk2.outputWaiters outputId).getD []).contains did
                   then (lookupA kk2.outputWaiters outputId).getD []
                   else (lookupA kk2.outputWaiters outputId).getD [] ++ [did])) }
          else kk2) kk).computations = kk.computations
      ∧ did ∈ (lookupA (l.foldl (fun kk2 outputId =>
          if (lookupA kk2.vars outputId).isSome
              || (lookupA kk2.problem_variables outputId).isSome then
            { kk2 with outputWaiters :=
                (putA kk2.outputWaiters outputId
                  (if ((lookupA kk2.outputWaiters outputId).getD []).contains did
                   then (lookupA kk2.outputWaiters outputId).getD []
                   else (lookupA kk2.outputWaiters outputId).getD [] ++ [did])) }
          else kk2) kk).outputWaiters out).getD []
  | [], kk, _, hstart => by
    cases hstart with
    | inl h => cases h
    | inr h => exact ⟨rfl, rfl, rfl, rfl, h⟩
  | o :: l, kk, hc, hstart => by
    simp only [List.foldl_cons]
    by_cases hcond : ((lookupA kk.vars o).isSome
        || (lookupA kk.problem_variables o).isSome) = true
    · rw [if_pos hcond]
      have hnext : out ∈ l ∨ did ∈ (lookupA ({ kk with outputWaiters :=
          (putA kk.outputWaiters o
            (if ((lookupA kk.outputWaiters o).getD []).contains did
             then (lookupA kk.outputWaiters o).getD []
             else (lookupA kk.outputWaiters o).getD [] ++ [did])) }
          : Kernel).outputWaiters out).getD [] := by
        by_cases hoo : o = out
        · subst hoo
          refine Or.inr ?_
          show did ∈ (lookupA (putA kk.outputWaiters o
            (if ((lookupA kk.outputWaiters o).getD []).contains did
             then (lookupA kk.outputWaiters o).getD []
             else (lookupA kk.outputWaiters o).getD [] ++ [did])) o).getD []
          rw [lookupA_putA, if_pos rfl]
          exact memWaiterList did _
        · cases hstart with
          | inl hmem =>
            cases List.mem_cons.mp hmem with
            | inl he => exact absurd he.symm hoo
            | inr hl => exact Or.inl hl
          | inr hmem =>
            refine Or.inr ?_
            show did ∈ (lookupA (putA kk.outputWaiters o _) out).getD []
            rw [lookupA_putA, if_neg hoo]
            exact hmem
      obtain ⟨w1, w2, w3, w4, w5⟩ := c9WaitersFold did out l _ (by
        show ((lookupA kk.vars out).isSome || (lookupA kk.problem_variables out).isSome)
          = true
        exact hc) hnext
      exact ⟨w1, w2, w3, w4, w5⟩
    · rw [if_neg hcond]
      have hnext : out ∈ l ∨ did ∈ (lookupA kk.outputWaiters out).getD [] := by
        cases hstart with
        | inl hmem =>
          cases List.mem_cons.mp hmem with
          | inl he =>
            exfalso
            exact hcond (he ▸ hc)
          | inr hl => exact Or.inl hl
        | inr hmem => exact Or.inr hmem
      exact c9WaitersFold did out l kk hc hnext

/-- C9 helper: a fresh definition whose outputs are all already owned is
quarantined as a duplicate-output problem: the existing owner keeps the
variable, no cell is created for the conflicting output, and the new id is
registered as a waiter on the conflicting output. -/
theorem defineComputation_duplicateOutput_quarantine (fuel : Nat) (k : Kernel)
    (defn : ComputationDefinition) (out owner : String)
    (hfresh1 : lookupA k.computations defn.id = none)
    (hfresh2 : lookupA k.problem_computations defn.id = none)
    (hmiss : getMissingInputs k defn = [])
    (hprob : getProblemInputs k defn = [])
    (hcycle : detectCircularDependencyIfAdded k defn = none)
    (hconf : getOutputConflictInfo k defn = some (out, owner))
    (htaken : ∀ o ∈ defn.outputs,
      ((lookupA k.vars o).isSome || (lookupA k.problem_variables o).isSome) = true)
    (houtmem : out ∈ defn.outputs)
    (houtnotin : out ∉ defn.inputs) :
    ∃ k', defineComputationPrim fuel k defn = Except.ok (k', false)
      ∧ lookupA k'.vars out = lookupA k.vars out
      ∧ lookupA k'.problem_variables out = lookupA k.problem_variables out
      ∧ defn.id ∈ (lookupA k'.outputWaiters out).getD []
      ∧ (∃ pc, lookupA k'.problem_computations defn.id = some pc
          ∧ pc.problemReason = ProblemReason.duplicateOutput (some owner))
      ∧ lookupA k'.computations defn.id = none := by
  unfold defineComputationPrim
  rw [hfresh1, hfresh2]
  rw [if_neg (by simp)]
  dsimp only
  rw [hmiss, hprob, hconf, hcycle]
  rw [if_pos (show (!List.isEmpty [] || !List.isEmpty []
    || (some (out, owner)).isSome || (none : Option (List String)).isSome) = true from rfl)]
  dsimp only
  refine ⟨_, rfl, ?_⟩
  unfold createProblemComputation
  dsimp only
  have hstep1 : defn.outputs.foldl (fun (acc : Kernel × List String) outputId =>
      if (lookupA acc.1.vars outputId).isSome
          || (lookupA acc.1.problem_variables outputId).isSome then acc
      else
        ({ acc.1 with
            problem_variables := (putA acc.1.problem_variables outputId
              { id := outputId,
                result := RResult.fatal (structuralErrorOf defn.id
                  (ProblemReason.duplicateOutput (some owner))),
                value_at := 0, cause_at := 0, dirty := false, producer := some defn.id,
                dependents := [], observers := 0, observeCount := 0 }) },
         acc.2 ++ [outputId])) (k, []) = (k, []) := by
    refine foldlInv (fun acc => acc = (k, [])) _ defn.outputs ?_ (k, []) rfl
    intro acc o ho hacc
    rw [hacc]
    dsimp only
    rw [if_pos (htaken o ho)]
  rw [hstep1]
  dsimp only
  obtain ⟨e1, e2, e3, e4, e5⟩ := c9InputsFold defn.id out defn.inputs
    { k with
      problem_computations := (putA k.problem_computations defn.id
        { base :=
            { id := defn.id, staticInputs := defn.inputs, runtimeInputs := [],
              outputs := [], dirty := false, observeCount := 0, dirtyInputCount := 0,
              cause_at := 0, input_version := 0, runningTask := none,
              abortingTasks := [] },
          problemReason := ProblemReason.duplicateOutput (some owner),
          missingInputs := [] ++ [],
          definition := defn }) } houtnotin
  obtain ⟨w1, w2, w3, w4, w5⟩ := c9WaitersFold defn.id out defn.outputs _
    (by
      rw [e1, e2]
      exact htaken out houtmem)
    (Or.inl houtmem)
  simp only [List.foldl_nil]
  refine ⟨?_, ?_, ?_, ?_, ?_⟩
  · rw [w1]
    exact e1
  · rw [w2]
    exact e2
  · exact w5
  · rw [w3, e3]
    have hp := lookupA_putA k.problem_computations defn.id defn.id
      { base :=
          { id := defn.id, staticInputs := defn.inputs, runtimeInputs := [],
            outputs := [], dirty := false, observeCount := 0, dirtyInputCount := 0,
            cause_at := 0, input_version := 0, runningTask := none,
            abortingTasks := [] },
        problemReason := ProblemReason.duplicateOutput (some owner),
        missingInputs := [] ++ [],
        definition := defn }
    rw [if_pos rfl] at hp
    exact ⟨_, hp, rfl⟩
  · rw [w4, e5]
    exact hfresh1

/-- C9: first-win output ownership.  When a fresh definition conflicts on
outputs that are all already owned, it is quarantined as a duplicate-output
problem — the earlier owner keeps the variable, no cell is created for the
conflicting output, and the id is registered as a waiter on that output
(general part); and in the concrete three-way conflict on `vB`, removing the
owner `B1` promotes the earliest registered waiter `B2` to a healthy
computation producing `vB`, while `B3` stays quarantined with its conflict
retargeted to `B2` (concrete part). -/
theorem firstWin_ownership_and_promotion :
    (∀ (fuel : Nat) (k : Kernel) (defn : ComputationDefinition) (out owner : String),
      lookupA k.computations defn.id = none →
      lookupA k.problem_computations defn.id = none →
      getMissingInputs k defn = [] →
      getProblemInputs k defn = [] →
      detectCircularDependencyIfAdded k defn = none →
      getOutputConflictInfo k defn = some (out, owner) →
      (∀ o ∈ defn.outputs,
        ((lookupA k.vars o).isSome || (lookupA k.problem_variables o).isSome) = true) →
      out ∈ defn.outputs → out ∉ defn.inputs →
      ∃ k', defineComputationPrim fuel k defn = Except.ok (k', false)
        ∧ lookupA k'.vars out = lookupA k.vars out
        ∧ lookupA k'.problem_variables out = lookupA k.problem_variables out
        ∧ defn.id ∈ (lookupA k'.outputWaiters out).getD []
        ∧ (∃ pc, lookupA k'.problem_computations defn.id = some pc
            ∧ pc.problemReason = ProblemReason.duplicateOutput (some owner))
        ∧ lookupA k'.computations defn.id = none)
    ∧ ((lookupA kFirstWin.computations "B1").isSome = true
      ∧ ((lookupA kFirstWin.vars "vB").map (fun v => v.producer)) = some (some "B1")
      ∧ (lookupA kFirstWin.problem_computations "B2").isSome = true
      ∧ (lookupA kFirstWin.problem_computations "B3").isSome = true
      ∧ lookupA kFirstWin.outputWaiters "vB" = some ["B2", "B3"]
      ∧ (lookupA (removeComputation 10 kFirstWin "B1").computations "B1").isSome = false
      ∧ (lookupA (removeComputation 10 kFirstWin "B1").computations "B2").isSome = true
      ∧ lookupA (removeComputation 10 kFirstWin "B1").problem_computations "B2" = none
      ∧ ((lookupA (removeComputation 10 kFirstWin "B1").vars "vB").map (fun v => v.producer))
          = some (some "B2")
      ∧ ((lookupA (removeComputation 10 kFirstWin "B1").problem_computations "B3").map
          (fun pc => pc.problemReason))
          = some (ProblemReason.duplicateOutput (some "B2"))) :=
  ⟨fun fuel k defn out owner h1 h2 h3 h4 h5 h6 h7 h8 h9 =>
      defineComputation_duplicateOutput_quarantine fuel k defn out owner
        h1 h2 h3 h4 h5 h6 h7 h8 h9,
    rfl, rfl, rfl, rfl, rfl, rfl, rfl, rfl, rfl, rfl⟩

/-- C9 witness: defining `B2` against the kernel that already owns `vB`
through `B1` quarantines `B2` and registers it as a waiter on `vB`. -/
theorem firstWin_ownership_and_promotion_witness :
    ∃ k', defineComputationPrim 7 kAfterB1 defnB2 = Except.ok (k', false)
      ∧ lookupA k'.vars "vB" = lookupA kAfterB1.vars "vB"
      ∧ lookupA k'.problem_variables "vB" = lookupA kAfterB1.problem_variables "vB"
      ∧ "B2" ∈ (lookupA k'.outputWaiters "vB").getD []
      ∧ (∃ pc, lookupA k'.problem_computations "B2" = some pc
          ∧ pc.problemReason = ProblemReason.duplicateOutput (some "B1"))
      ∧ lookupA k'.computations "B2" = none :=
  firstWin_ownership_and_promotion.1 7 kAfterB1 defnB2 "vB" "B1"
    rfl rfl rfl rfl rfl rfl (by decide) (by decide) (by decide)
